import Mathlib

/-!
Verification of `src/contextAverage.hxx` (multi-scale context features over
integral images) against its specification.

The C++ code is shallowly embedded: multi-channel arrays become functions
`ℕ → ℕ → ℕ → ℚ` (resp. four indices in 3D) together with explicit shape
numbers, the element type `T` (a float) becomes `ℚ` so that all claims are
settled over exact arithmetic, and the drivers' writes into the output array
`res` become explicit pointwise function updates threaded through `List.foldl`
loops that mirror the C++ `for` loops.

`integralImage.hxx` is part of the repository but not available here, so the
four integral builders are modelled from §4.1 of the spec (exact prefix sums);
everything else is translated directly from `contextAverage.hxx`.
-/

namespace ContextAverage

/-- Shape plus data of a 2D multi-channel array `(x, y, channel)`. -/
structure Arr3 where
  nx : ℕ
  ny : ℕ
  nc : ℕ
  data : ℕ → ℕ → ℕ → ℚ

/-- Shape plus data of a 3D multi-channel array `(x, y, z, channel)`. -/
structure Arr4 where
  nx : ℕ
  ny : ℕ
  nz : ℕ
  nc : ℕ
  data : ℕ → ℕ → ℕ → ℕ → ℚ

/-- State visible to a 2D driver call: the radius list `sizes`, the input
`predictions` array and the output array `res`.  The C++ drivers receive all
three by reference. -/
structure St2 where
  sizes : List ℕ
  predictions : Arr3
  res : ℕ → ℕ → ℕ → ℚ

/-- State visible to the 3D driver call. -/
structure St3 where
  sizes : List ℕ
  predictions : Arr4
  res : ℕ → ℕ → ℕ → ℕ → ℚ

/-- Exact 2D prefix sum of a field: `prefixSum2 F x y c = Σ_{i ≤ x, j ≤ y} F i j c`. -/
def prefixSum2 (F : ℕ → ℕ → ℕ → ℚ) (x y c : ℕ) : ℚ :=
  ∑ i in Finset.range (x + 1), ∑ j in Finset.range (y + 1), F i j c

/-- Exact 3D prefix sum of a field. -/
def prefixSum3 (F : ℕ → ℕ → ℕ → ℕ → ℚ) (x y z c : ℕ) : ℚ :=
  ∑ i in Finset.range (x + 1), ∑ j in Finset.range (y + 1),
    ∑ k in Finset.range (z + 1), F i j k c

/-- Modelled from the spec: `integralImage` (declared in `integralImage.hxx`,
not under `src/`) builds the accumulator with
`accum(p,c) = Σ_{q ≤ p componentwise} field(q,c)` (§4.1). -/
def integralImage (p : Arr3) : ℕ → ℕ → ℕ → ℚ :=
  fun x y c => prefixSum2 p.data x y c

/-- Modelled from the spec: `integralImage2` (declared in `integralImage.hxx`,
not under `src/`) is the squared variant of `integralImage`: the same prefix
sum taken over `field(q,c)²` (§4.1). -/
def integralImage2 (p : Arr3) : ℕ → ℕ → ℕ → ℚ :=
  fun x y c => prefixSum2 (fun a b ch => p.data a b ch * p.data a b ch) x y c

/-- Modelled from the spec: `integralVolume` (declared in `integralImage.hxx`,
not under `src/`) builds the 3D prefix-sum accumulator (§4.1). -/
def integralVolume (p : Arr4) : ℕ → ℕ → ℕ → ℕ → ℚ :=
  fun x y z c => prefixSum3 p.data x y z c

/-- Modelled from the spec: `integralVolume2` (declared in `integralImage.hxx`,
not under `src/`) is the squared variant of `integralVolume` (§4.1). -/
def integralVolume2 (p : Arr4) : ℕ → ℕ → ℕ → ℕ → ℚ :=
  fun x y z c =>
    prefixSum3 (fun a b d ch => p.data a b d ch * p.data a b d ch) x y z c

/-- Border test of `average_features`:
`x < r || y < r || x+r > nx-1 || y+r > ny-1`, with the last two comparisons
taken over the integers (`shape()[0]-1` is `int` arithmetic in C++), hence
`x+r > nx-1 ↔ nx ≤ x+r`. -/
def borderOut2 (nx ny x y r : ℕ) : Bool :=
  decide (x < r) || decide (y < r) || decide (nx ≤ x + r) || decide (ny ≤ y + r)

/-- Border test of `average_features_3d_is`. -/
def borderOut3 (nx ny nz x y z r : ℕ) : Bool :=
  decide (x < r) || decide (y < r) || decide (z < r) ||
    decide (nx ≤ x + r) || decide (ny ≤ y + r) || decide (nz ≤ z + r)

/-- Four-corner lookup of `average_features` (lines 39-44 of
`contextAverage.hxx`): each corner whose index would be `-1` is replaced by
`0`, and the result is `lr - ll - ur + ul`. -/
def boxSum2 (integral : ℕ → ℕ → ℕ → ℚ) (x y c r : ℕ) : ℚ :=
  let ul : ℚ := if x = r ∨ y = r then 0 else integral (x - r - 1) (y - r - 1) c
  let ll : ℚ := if y = r then 0 else integral (x + r) (y - r - 1) c
  let ur : ℚ := if x = r then 0 else integral (x - r - 1) (y + r) c
  let lr : ℚ := integral (x + r) (y + r) c
  lr - ll - ur + ul

/-- Eight-corner lookup of `average_features_3d_is` (lines 88-100 of
`contextAverage.hxx`), with the sum taken exactly as written in the source:
`uur + ull + llr + lul - ulr - uul - lur - lll`. -/
def boxSum3 (integral : ℕ → ℕ → ℕ → ℕ → ℚ) (x y z c r : ℕ) : ℚ :=
  let uul : ℚ := if x = r ∨ y = r ∨ z = r then 0 else
    integral (x - r - 1) (y - r - 1) (z - r - 1) c
  let ull : ℚ := if y = r ∨ z = r then 0 else
    integral (x + r) (y - r - 1) (z - r - 1) c
  let uur : ℚ := if x = r ∨ z = r then 0 else
    integral (x - r - 1) (y + r) (z - r - 1) c
  let ulr : ℚ := if z = r then 0 else integral (x + r) (y + r) (z - r - 1) c
  let lul : ℚ := if x = r ∨ y = r then 0 else
    integral (x - r - 1) (y - r - 1) (z + r) c
  let lll : ℚ := if y = r then 0 else integral (x + r) (y - r - 1) (z + r) c
  let lur : ℚ := if x = r then 0 else integral (x - r - 1) (y + r) (z + r) c
  let llr : ℚ := integral (x + r) (y + r) (z + r) c
  uur + ull + llr + lul - ulr - uul - lur - lll

/-- Divisor used by `average_features` at loop index `ir`: the `int n`
of the source, `(2r+1)²` at the first radius and
`(2r_ir+1)² - (2r_{ir-1}+1)²` afterwards (C++ `int` arithmetic, hence `ℤ`). -/
def afCount2 (radii : List ℕ) (ir : ℕ) : ℤ :=
  let r : ℤ := radii.getD ir 0
  if 0 < ir then
    let rp : ℤ := radii.getD (ir - 1) 0
    (2 * r + 1) * (2 * r + 1) - (2 * rp + 1) * (2 * rp + 1)
  else (2 * r + 1) * (2 * r + 1)

/-- Divisor used by `average_features_3d_is` at loop index `ir` (cubes). -/
def afCount3 (radii : List ℕ) (ir : ℕ) : ℤ :=
  let r : ℤ := radii.getD ir 0
  if 0 < ir then
    let rp : ℤ := radii.getD (ir - 1) 0
    (2 * r + 1) * (2 * r + 1) * (2 * r + 1) - (2 * rp + 1) * (2 * rp + 1) * (2 * rp + 1)
  else (2 * r + 1) * (2 * r + 1) * (2 * r + 1)

/-- Body of the `ir`-th iteration of the loop in `average_features`:
`avPrev` is the value `averages[ir-1]` written by the previous iteration
(only read when `ir > 0`). -/
def afStep2 (radii : List ℕ) (x y c nx ny nc : ℕ)
    (integral : ℕ → ℕ → ℕ → ℚ) (ir : ℕ) (avPrev : ℚ) : ℚ :=
  let r := radii.getD ir 0
  if borderOut2 nx ny x y r then 1 / (nc : ℚ)
  else
    let sum := boxSum2 integral x y c r
    let sum2 := if 0 < ir then
        let rp := radii.getD (ir - 1) 0
        sum - avPrev * ((2 * rp + 1 : ℕ) : ℚ) * ((2 * rp + 1 : ℕ) : ℚ)
      else sum
    sum2 / ((afCount2 radii ir : ℤ) : ℚ)

/-- Body of the `ir`-th iteration of the loop in `average_features_3d_is`. -/
def afStep3 (radii : List ℕ) (x y z c nx ny nz nc : ℕ)
    (integral : ℕ → ℕ → ℕ → ℕ → ℚ) (ir : ℕ) (avPrev : ℚ) : ℚ :=
  let r := radii.getD ir 0
  if borderOut3 nx ny nz x y z r then 1 / (nc : ℚ)
  else
    let sum := boxSum3 integral x y z c r
    let sum2 := if 0 < ir then
        let rp := radii.getD (ir - 1) 0
        sum - avPrev * (((2 * rp + 1) * (2 * rp + 1) * (2 * rp + 1) : ℕ) : ℚ)
      else sum
    sum2 / ((afCount3 radii ir : ℤ) : ℚ)

/-- First `n` entries of the `averages` vector of `average_features`:
iteration `ir` appends `averages[ir]`, reading `averages[ir-1]` from the list
built so far. -/
def afAux2 (radii : List ℕ) (x y c nx ny nc : ℕ)
    (integral : ℕ → ℕ → ℕ → ℚ) : ℕ → List ℚ
  | 0 => []
  | n + 1 =>
      let prev := afAux2 radii x y c nx ny nc integral n
      prev ++ [afStep2 radii x y c nx ny nc integral n (prev.getD (n - 1) 0)]

/-- First `n` entries of the `averages` vector of `average_features_3d_is`. -/
def afAux3 (radii : List ℕ) (x y z c nx ny nz nc : ℕ)
    (integral : ℕ → ℕ → ℕ → ℕ → ℚ) : ℕ → List ℚ
  | 0 => []
  | n + 1 =>
      let prev := afAux3 radii x y z c nx ny nz nc integral n
      prev ++ [afStep3 radii x y z c nx ny nz nc integral n (prev.getD (n - 1) 0)]

/-- Embedding of `average_features` (2D): the `averages` vector it fills.
`nx ny nc` are `integral.shape()[0..2]` in the source. -/
def average_features (radii : List ℕ) (x y c nx ny nc : ℕ)
    (integral : ℕ → ℕ → ℕ → ℚ) : List ℚ :=
  afAux2 radii x y c nx ny nc integral radii.length

/-- Embedding of `average_features_3d_is` (3D). -/
def average_features_3d_is (radii : List ℕ) (x y z c nx ny nz nc : ℕ)
    (integral : ℕ → ℕ → ℕ → ℕ → ℚ) : List ℚ :=
  afAux3 radii x y z c nx ny nz nc integral radii.length

/-- Brute-force sum of a field over the closed 2D box
`[x-r, x+r] × [y-r, y+r]` for one channel. -/
def bruteBox2 (F : ℕ → ℕ → ℕ → ℚ) (x y c r : ℕ) : ℚ :=
  ∑ i in Finset.Icc (x - r) (x + r), ∑ j in Finset.Icc (y - r) (y + r), F i j c

/-- Brute-force sum of a field over the closed 3D box. -/
def bruteBox3 (F : ℕ → ℕ → ℕ → ℕ → ℚ) (x y z c r : ℕ) : ℚ :=
  ∑ i in Finset.Icc (x - r) (x + r), ∑ j in Finset.Icc (y - r) (y + r),
    ∑ k in Finset.Icc (z - r) (z + r), F i j k c

/-- Pointwise update of a 3-index array: the effect of one assignment
`res(a, b, k) = v`. -/
def upd3 (f : ℕ → ℕ → ℕ → ℚ) (a b k : ℕ) (v : ℚ) : ℕ → ℕ → ℕ → ℚ :=
  fun x y j => if x = a ∧ y = b ∧ j = k then v else f x y j

/-- Pointwise update of a 4-index array: `res(a, b, d, k) = v`. -/
def upd4 (f : ℕ → ℕ → ℕ → ℕ → ℚ) (a b d k : ℕ) (v : ℚ) : ℕ → ℕ → ℕ → ℕ → ℚ :=
  fun x y z j => if x = a ∧ y = b ∧ z = d ∧ j = k then v else f x y z j

/-- Effect of `avContext2Dmulti` on the output array: the nested
`for c / for x / for y` loops, each location writing
`res(x, y, c*nnewfeatures + ii) = newf[ii]`. -/
def avLoop2 (sizes : List ℕ) (nx ny nc : ℕ) (integral : ℕ → ℕ → ℕ → ℚ)
    (res0 : ℕ → ℕ → ℕ → ℚ) : ℕ → ℕ → ℕ → ℚ :=
  (List.range nc).foldl (fun rc c =>
    (List.range nx).foldl (fun rx x =>
      (List.range ny).foldl (fun ry y =>
        let newf := average_features sizes x y c nx ny nc integral
        (List.range sizes.length).foldl
          (fun rw ii => upd3 rw x y (c * sizes.length + ii) (newf.getD ii 0)) ry)
        rx) rc) res0

/-- Effect of `varContext2Dmulti` on the output array: at each location the
means are written at `c*2*nnewfeatures + ii` and then the variances
`newf2[ii] - newf[ii]*newf[ii]` at `c*2*nnewfeatures + nnewfeatures + ii`. -/
def varLoop2 (sizes : List ℕ) (nx ny nc : ℕ)
    (integral integral2 : ℕ → ℕ → ℕ → ℚ)
    (res0 : ℕ → ℕ → ℕ → ℚ) : ℕ → ℕ → ℕ → ℚ :=
  (List.range nc).foldl (fun rc c =>
    (List.range nx).foldl (fun rx x =>
      (List.range ny).foldl (fun ry y =>
        let newf := average_features sizes x y c nx ny nc integral
        let newf2 := average_features sizes x y c nx ny nc integral2
        let rm := (List.range sizes.length).foldl
          (fun rw ii =>
            upd3 rw x y (c * 2 * sizes.length + ii) (newf.getD ii 0)) ry
        (List.range sizes.length).foldl
          (fun rw ii =>
            upd3 rw x y (c * 2 * sizes.length + sizes.length + ii)
              (newf2.getD ii 0 - newf.getD ii 0 * newf.getD ii 0)) rm)
        rx) rc) res0

/-- Effect of `varContext3Dmulti` on the output array. -/
def varLoop3 (sizes : List ℕ) (nx ny nz nc : ℕ)
    (integral integral2 : ℕ → ℕ → ℕ → ℕ → ℚ)
    (res0 : ℕ → ℕ → ℕ → ℕ → ℚ) : ℕ → ℕ → ℕ → ℕ → ℚ :=
  (List.range nc).foldl (fun rc c =>
    (List.range nx).foldl (fun rx x =>
      (List.range ny).foldl (fun ry y =>
        (List.range nz).foldl (fun rz z =>
          let newf := average_features_3d_is sizes x y z c nx ny nz nc integral
          let newf2 := average_features_3d_is sizes x y z c nx ny nz nc integral2
          let rm := (List.range sizes.length).foldl
            (fun rw ii =>
              upd4 rw x y z (c * 2 * sizes.length + ii) (newf.getD ii 0)) rz
          (List.range sizes.length).foldl
            (fun rw ii =>
              upd4 rw x y z (c * 2 * sizes.length + sizes.length + ii)
                (newf2.getD ii 0 - newf.getD ii 0 * newf.getD ii 0)) rm)
          ry) rx) rc) res0

/-- Embedding of the driver `avContext2Dmulti`: builds the integral image of
`predictions` and fills `res`; `sizes` and `predictions` are only read. -/
def avContext2Dmulti (st : St2) : St2 :=
  { st with
    res := avLoop2 st.sizes st.predictions.nx st.predictions.ny
      st.predictions.nc (integralImage st.predictions) st.res }

/-- Embedding of the driver `varContext2Dmulti`. -/
def varContext2Dmulti (st : St2) : St2 :=
  { st with
    res := varLoop2 st.sizes st.predictions.nx st.predictions.ny
      st.predictions.nc (integralImage st.predictions)
      (integralImage2 st.predictions) st.res }

/-- Embedding of the driver `varContext3Dmulti`. -/
def varContext3Dmulti (st : St3) : St3 :=
  { st with
    res := varLoop3 st.sizes st.predictions.nx st.predictions.ny
      st.predictions.nz st.predictions.nc (integralVolume st.predictions)
      (integralVolume2 st.predictions) st.res }

/-! ### Concrete inputs used as witnesses and counterexamples -/

/-- Field `F(i,j) = i²`, constant across `j` and channels. -/
def fieldSq : ℕ → ℕ → ℕ → ℚ := fun i _ _ => (i : ℚ) * (i : ℚ)

/-- Sample 3D field. -/
def fieldLin3 : ℕ → ℕ → ℕ → ℕ → ℚ := fun i j k _ => (i : ℚ) + (j : ℚ) * (k : ℚ)

/-- Field that is `1` exactly on the eight cells at Chebyshev distance 1 from
`(2,2)` and `0` elsewhere. -/
def ringField : ℕ → ℕ → ℕ → ℚ := fun i j _ =>
  if (1 ≤ i ∧ i ≤ 3 ∧ 1 ≤ j ∧ j ≤ 3) ∧ ¬(i = 2 ∧ j = 2) then 1 else 0

/-- 5×5 single-channel predictions holding `ringField`, radii `[0,1,2]`. -/
def stRing : St2 := ⟨[0, 1, 2], ⟨5, 5, 1, ringField⟩, fun _ _ _ => 0⟩

/-- 3×3 single-channel all-ones predictions with the single radius 5, which is
out of border everywhere. -/
def stBorder : St2 := ⟨[5], ⟨3, 3, 1, fun _ _ _ => 1⟩, fun _ _ _ => 0⟩

/-- 3D analogue of `stBorder`. -/
def stBorder3 : St3 := ⟨[5], ⟨3, 3, 3, 1, fun _ _ _ _ => 1⟩, fun _ _ _ _ => 0⟩

/-- 3×3 single-channel constant-7 predictions with radius list `[1]`. -/
def stConst2 : St2 := ⟨[1], ⟨3, 3, 1, fun _ _ _ => 7⟩, fun _ _ _ => 0⟩

/-- 3D analogue of `stConst2`. -/
def stConst3 : St3 := ⟨[1], ⟨3, 3, 3, 1, fun _ _ _ _ => 7⟩, fun _ _ _ _ => 0⟩

/-- State with an empty radius list and a recognizable output array. -/
def stEmpty2 : St2 := ⟨[], ⟨2, 2, 1, fun _ _ _ => 1⟩, fun x y j => ((x + y + j : ℕ) : ℚ)⟩

/-- 3D state with an empty radius list. -/
def stEmpty3 : St3 :=
  ⟨[], ⟨2, 2, 2, 1, fun _ _ _ _ => 1⟩, fun x y z j => ((x + y + z + j : ℕ) : ℚ)⟩

/-! ### Prefix sums versus brute-force box sums -/

/-- Half-open 2D prefix sum: `P2 F c a b = Σ_{i < a, j < b} F i j c`. -/
def P2 (F : ℕ → ℕ → ℕ → ℚ) (c a b : ℕ) : ℚ :=
  ∑ i in Finset.range a, ∑ j in Finset.range b, F i j c

/-- Half-open 3D prefix sum. -/
def P3 (F : ℕ → ℕ → ℕ → ℕ → ℚ) (c a b d : ℕ) : ℚ :=
  ∑ i in Finset.range a, ∑ j in Finset.range b, ∑ k in Finset.range d, F i j k c

lemma prefixSum2_eq_P2 (F : ℕ → ℕ → ℕ → ℚ) (u v c : ℕ) :
    prefixSum2 F u v c = P2 F c (u + 1) (v + 1) := rfl

lemma prefixSum3_eq_P3 (F : ℕ → ℕ → ℕ → ℕ → ℚ) (u v w c : ℕ) :
    prefixSum3 F u v w c = P3 F c (u + 1) (v + 1) (w + 1) := rfl

/-- Inclusion-exclusion over a half-open 2D box, for any function. -/
lemma sum_box_gen (g : ℕ → ℕ → ℚ) {a1 a2 b1 b2 : ℕ} (ha : a1 ≤ a2) (hb : b1 ≤ b2) :
    ∑ i in Finset.Ico a1 a2, ∑ j in Finset.Ico b1 b2, g i j
      = (∑ i in Finset.range a2, ∑ j in Finset.range b2, g i j)
        - (∑ i in Finset.range a2, ∑ j in Finset.range b1, g i j)
        - (∑ i in Finset.range a1, ∑ j in Finset.range b2, g i j)
        + ∑ i in Finset.range a1, ∑ j in Finset.range b1, g i j := by
  have h1 : ∀ i, ∑ j in Finset.Ico b1 b2, g i j
      = (∑ j in Finset.range b2, g i j) - ∑ j in Finset.range b1, g i j :=
    fun i => Finset.sum_Ico_eq_sub _ hb
  rw [Finset.sum_congr rfl fun i _ => h1 i, Finset.sum_sub_distrib,
    Finset.sum_Ico_eq_sub _ ha, Finset.sum_Ico_eq_sub _ ha]
  ring

/-- Inclusion-exclusion over a half-open 3D box, for any function. -/
lemma sum_box3_gen (g : ℕ → ℕ → ℕ → ℚ) {a1 a2 b1 b2 d1 d2 : ℕ}
    (ha : a1 ≤ a2) (hb : b1 ≤ b2) (hd : d1 ≤ d2) :
    ∑ i in Finset.Ico a1 a2, ∑ j in Finset.Ico b1 b2, ∑ k in Finset.Ico d1 d2, g i j k
      = (∑ i in Finset.range a2, ∑ j in Finset.range b2, ∑ k in Finset.range d2, g i j k)
        - (∑ i in Finset.range a2, ∑ j in Finset.range b2, ∑ k in Finset.range d1, g i j k)
        - (∑ i in Finset.range a2, ∑ j in Finset.range b1, ∑ k in Finset.range d2, g i j k)
        - (∑ i in Finset.range a1, ∑ j in Finset.range b2, ∑ k in Finset.range d2, g i j k)
        + (∑ i in Finset.range a2, ∑ j in Finset.range b1, ∑ k in Finset.range d1, g i j k)
        + (∑ i in Finset.range a1, ∑ j in Finset.range b2, ∑ k in Finset.range d1, g i j k)
        + (∑ i in Finset.range a1, ∑ j in Finset.range b1, ∑ k in Finset.range d2, g i j k)
        - ∑ i in Finset.range a1, ∑ j in Finset.range b1, ∑ k in Finset.range d1, g i j k := by
  have h1 : ∀ i, ∑ j in Finset.Ico b1 b2, ∑ k in Finset.Ico d1 d2, g i j k
      = (∑ j in Finset.range b2, ∑ k in Finset.range d2, g i j k)
        - (∑ j in Finset.range b2, ∑ k in Finset.range d1, g i j k)
        - (∑ j in Finset.range b1, ∑ k in Finset.range d2, g i j k)
        + ∑ j in Finset.range b1, ∑ k in Finset.range d1, g i j k :=
    fun i => sum_box_gen (fun j k => g i j k) hb hd
  rw [Finset.sum_congr rfl fun i _ => h1 i]
  simp only [Finset.sum_add_distrib, Finset.sum_sub_distrib]
  simp only [Finset.sum_Ico_eq_sub _ ha]
  ring

/-- The guarded four-corner expression of `average_features`, applied to the
exact prefix sum, equals the brute-force box sum when the box fits on the
low sides. -/
lemma boxSum2_prefixSum (F : ℕ → ℕ → ℕ → ℚ) (x y c r : ℕ)
    (hx : r ≤ x) (hy : r ≤ y) :
    boxSum2 (prefixSum2 F) x y c r = bruteBox2 F x y c r := by
  have hul : (if x = r ∨ y = r then (0 : ℚ)
      else prefixSum2 F (x - r - 1) (y - r - 1) c) = P2 F c (x - r) (y - r) := by
    by_cases h1 : x = r
    · rw [if_pos (Or.inl h1), show x - r = 0 by omega]
      simp [P2]
    · by_cases h2 : y = r
      · rw [if_pos (Or.inr h2), show y - r = 0 by omega]
        simp [P2]
      · rw [if_neg (by tauto), prefixSum2_eq_P2,
          show x - r - 1 + 1 = x - r by omega, show y - r - 1 + 1 = y - r by omega]
  have hll : (if y = r then (0 : ℚ)
      else prefixSum2 F (x + r) (y - r - 1) c) = P2 F c (x + r + 1) (y - r) := by
    by_cases h2 : y = r
    · rw [if_pos h2, show y - r = 0 by omega]
      simp [P2]
    · rw [if_neg h2, prefixSum2_eq_P2, show y - r - 1 + 1 = y - r by omega]
  have hur : (if x = r then (0 : ℚ)
      else prefixSum2 F (x - r - 1) (y + r) c) = P2 F c (x - r) (y + r + 1) := by
    by_cases h1 : x = r
    · rw [if_pos h1, show x - r = 0 by omega]
      simp [P2]
    · rw [if_neg h1, prefixSum2_eq_P2, show x - r - 1 + 1 = x - r by omega]
  have hbrute : bruteBox2 F x y c r
      = P2 F c (x + r + 1) (y + r + 1) - P2 F c (x + r + 1) (y - r)
        - P2 F c (x - r) (y + r + 1) + P2 F c (x - r) (y - r) := by
    rw [bruteBox2, ← Nat.Ico_succ_right (x - r) (x + r),
      ← Nat.Ico_succ_right (y - r) (y + r)]
    exact sum_box_gen (fun i j => F i j c) (by omega) (by omega)
  simp only [boxSum2]
  rw [hul, hll, hur, prefixSum2_eq_P2, hbrute]

/-- The guarded eight-corner expression of `average_features_3d_is`, applied
to the exact prefix sum, equals the brute-force box sum when the box fits on
the low sides. -/
lemma boxSum3_prefixSum (F : ℕ → ℕ → ℕ → ℕ → ℚ) (x y z c r : ℕ)
    (hx : r ≤ x) (hy : r ≤ y) (hz : r ≤ z) :
    boxSum3 (prefixSum3 F) x y z c r = bruteBox3 F x y z c r := by
  have huul : (if x = r ∨ y = r ∨ z = r then (0 : ℚ)
      else prefixSum3 F (x - r - 1) (y - r - 1) (z - r - 1) c)
      = P3 F c (x - r) (y - r) (z - r) := by
    by_cases h1 : x = r
    · rw [if_pos (Or.inl h1), show x - r = 0 by omega]
      simp [P3]
    · by_cases h2 : y = r
      · rw [if_pos (Or.inr (Or.inl h2)), show y - r = 0 by omega]
        simp [P3]
      · by_cases h3 : z = r
        · rw [if_pos (Or.inr (Or.inr h3)), show z - r = 0 by omega]
          simp [P3]
        · rw [if_neg (by tauto), prefixSum3_eq_P3, show x - r - 1 + 1 = x - r by omega, show y - r - 1 + 1 = y - r by omega, show z - r - 1 + 1 = z - r by omega]
  have hull : (if y = r ∨ z = r then (0 : ℚ)
      else prefixSum3 F (x + r) (y - r - 1) (z - r - 1) c)
      = P3 F c (x + r + 1) (y - r) (z - r) := by
    by_cases h2 : y = r
    · rw [if_pos (Or.inl h2), show y - r = 0 by omega]
      simp [P3]
    · by_cases h3 : z = r
      · rw [if_pos (Or.inr h3), show z - r = 0 by omega]
        simp [P3]
      · rw [if_neg (by tauto), prefixSum3_eq_P3, show y - r - 1 + 1 = y - r by omega, show z - r - 1 + 1 = z - r by omega]
  have huur : (if x = r ∨ z = r then (0 : ℚ)
      else prefixSum3 F (x - r - 1) (y + r) (z - r - 1) c)
      = P3 F c (x - r) (y + r + 1) (z - r) := by
    by_cases h1 : x = r
    · rw [if_pos (Or.inl h1), show x - r = 0 by omega]
      simp [P3]
    · by_cases h3 : z = r
      · rw [if_pos (Or.inr h3), show z - r = 0 by omega]
        simp [P3]
      · rw [if_neg (by tauto), prefixSum3_eq_P3, show x - r - 1 + 1 = x - r by omega, show z - r - 1 + 1 = z - r by omega]
  have hulr : (if z = r then (0 : ℚ)
      else prefixSum3 F (x + r) (y + r) (z - r - 1) c)
      = P3 F c (x + r + 1) (y + r + 1) (z - r) := by
    by_cases h3 : z = r
    · rw [if_pos h3, show z - r = 0 by omega]
      simp [P3]
    · rw [if_neg h3, prefixSum3_eq_P3, show z - r - 1 + 1 = z - r by omega]
  have hlul : (if x = r ∨ y = r then (0 : ℚ)
      else prefixSum3 F (x - r - 1) (y - r - 1) (z + r) c)
      = P3 F c (x - r) (y - r) (z + r + 1) := by
    by_cases h1 : x = r
    · rw [if_pos (Or.inl h1), show x - r = 0 by omega]
      simp [P3]
    · by_cases h2 : y = r
      · rw [if_pos (Or.inr h2), show y - r = 0 by omega]
        simp [P3]
      · rw [if_neg (by tauto), prefixSum3_eq_P3, show x - r - 1 + 1 = x - r by omega, show y - r - 1 + 1 = y - r by omega]
  have hlll : (if y = r then (0 : ℚ)
      else prefixSum3 F (x + r) (y - r - 1) (z + r) c)
      = P3 F c (x + r + 1) (y - r) (z + r + 1) := by
    by_cases h2 : y = r
    · rw [if_pos h2, show y - r = 0 by omega]
      simp [P3]
    · rw [if_neg h2, prefixSum3_eq_P3, show y - r - 1 + 1 = y - r by omega]
  have hlur : (if x = r then (0 : ℚ)
      else prefixSum3 F (x - r - 1) (y + r) (z + r) c)
      = P3 F c (x - r) (y + r + 1) (z + r + 1) := by
    by_cases h1 : x = r
    · rw [if_pos h1, show x - r = 0 by omega]
      simp [P3]
    · rw [if_neg h1, prefixSum3_eq_P3, show x - r - 1 + 1 = x - r by omega]
  have hbrute : bruteBox3 F x y z c r
      = P3 F c (x + r + 1) (y + r + 1) (z + r + 1)
        - P3 F c (x + r + 1) (y + r + 1) (z - r)
        - P3 F c (x + r + 1) (y - r) (z + r + 1)
        - P3 F c (x - r) (y + r + 1) (z + r + 1)
        + P3 F c (x + r + 1) (y - r) (z - r)
        + P3 F c (x - r) (y + r + 1) (z - r)
        + P3 F c (x - r) (y - r) (z + r + 1)
        - P3 F c (x - r) (y - r) (z - r) := by
    rw [bruteBox3, ← Nat.Ico_succ_right (x - r) (x + r),
      ← Nat.Ico_succ_right (y - r) (y + r), ← Nat.Ico_succ_right (z - r) (z + r)]
    exact sum_box3_gen (fun i j k => F i j k c) (by omega) (by omega) (by omega)
  simp only [boxSum3]
  rw [huul, hull, huur, hulr, hlul, hlll, hlur, prefixSum3_eq_P3, hbrute]
  ring

/-! ### Evaluation lemmas for the `average_features` loops -/

lemma borderOut2_eq_false (nx ny x y r : ℕ) :
    borderOut2 nx ny x y r = false ↔
      r ≤ x ∧ r ≤ y ∧ x + r < nx ∧ y + r < ny := by
  simp [borderOut2]
  omega

lemma borderOut3_eq_false (nx ny nz x y z r : ℕ) :
    borderOut3 nx ny nz x y z r = false ↔
      r ≤ x ∧ r ≤ y ∧ r ≤ z ∧ x + r < nx ∧ y + r < ny ∧ z + r < nz := by
  simp [borderOut3]
  omega

lemma afAux2_length (radii : List ℕ) (x y c nx ny nc : ℕ)
    (integral : ℕ → ℕ → ℕ → ℚ) (n : ℕ) :
    (afAux2 radii x y c nx ny nc integral n).length = n := by
  induction n with
  | zero => rfl
  | succ m ih => simp [afAux2, ih]

lemma afAux3_length (radii : List ℕ) (x y z c nx ny nz nc : ℕ)
    (integral : ℕ → ℕ → ℕ → ℕ → ℚ) (n : ℕ) :
    (afAux3 radii x y z c nx ny nz nc integral n).length = n := by
  induction n with
  | zero => rfl
  | succ m ih => simp [afAux3, ih]

lemma afAux2_getD_stable (radii : List ℕ) (x y c nx ny nc : ℕ)
    (integral : ℕ → ℕ → ℕ → ℚ) (ir m n : ℕ) (h1 : ir < m) (h2 : m ≤ n) :
    (afAux2 radii x y c nx ny nc integral n).getD ir 0
      = (afAux2 radii x y c nx ny nc integral m).getD ir 0 := by
  induction n with
  | zero =>
      have hm : m = 0 := by omega
      subst hm
      rfl
  | succ k ih =>
      by_cases hm : m = k + 1
      · subst hm
        rfl
      · have h3 : m ≤ k := by omega
        simp only [afAux2]
        rw [List.getD_append _ _ _ _ (by rw [afAux2_length]; omega)]
        exact ih h3

lemma afAux3_getD_stable (radii : List ℕ) (x y z c nx ny nz nc : ℕ)
    (integral : ℕ → ℕ → ℕ → ℕ → ℚ) (ir m n : ℕ) (h1 : ir < m) (h2 : m ≤ n) :
    (afAux3 radii x y z c nx ny nz nc integral n).getD ir 0
      = (afAux3 radii x y z c nx ny nz nc integral m).getD ir 0 := by
  induction n with
  | zero =>
      have hm : m = 0 := by omega
      subst hm
      rfl
  | succ k ih =>
      by_cases hm : m = k + 1
      · subst hm
        rfl
      · have h3 : m ≤ k := by omega
        simp only [afAux3]
        rw [List.getD_append _ _ _ _ (by rw [afAux3_length]; omega)]
        exact ih h3

/-- Value of entry `ir` of the `averages` vector: the step function applied to
the entry written at `ir - 1`. -/
lemma afAux2_getD_eval (radii : List ℕ) (x y c nx ny nc : ℕ)
    (integral : ℕ → ℕ → ℕ → ℚ) (ir n : ℕ) (h : ir < n) :
    (afAux2 radii x y c nx ny nc integral n).getD ir 0
      = afStep2 radii x y c nx ny nc integral ir
          ((afAux2 radii x y c nx ny nc integral ir).getD (ir - 1) 0) := by
  rw [afAux2_getD_stable radii x y c nx ny nc integral ir (ir + 1) n
    (by omega) (by omega)]
  simp only [afAux2]
  rw [List.getD_append_right _ _ _ _ (by rw [afAux2_length])]
  simp [afAux2_length]

lemma afAux3_getD_eval (radii : List ℕ) (x y z c nx ny nz nc : ℕ)
    (integral : ℕ → ℕ → ℕ → ℕ → ℚ) (ir n : ℕ) (h : ir < n) :
    (afAux3 radii x y z c nx ny nz nc integral n).getD ir 0
      = afStep3 radii x y z c nx ny nz nc integral ir
          ((afAux3 radii x y z c nx ny nz nc integral ir).getD (ir - 1) 0) := by
  rw [afAux3_getD_stable radii x y z c nx ny nz nc integral ir (ir + 1) n
    (by omega) (by omega)]
  simp only [afAux3]
  rw [List.getD_append_right _ _ _ _ (by rw [afAux3_length])]
  simp [afAux3_length]

lemma average_features_length (radii : List ℕ) (x y c nx ny nc : ℕ)
    (integral : ℕ → ℕ → ℕ → ℚ) :
    (average_features radii x y c nx ny nc integral).length = radii.length :=
  afAux2_length radii x y c nx ny nc integral radii.length

lemma average_features_3d_length (radii : List ℕ) (x y z c nx ny nz nc : ℕ)
    (integral : ℕ → ℕ → ℕ → ℕ → ℚ) :
    (average_features_3d_is radii x y z c nx ny nz nc integral).length
      = radii.length :=
  afAux3_length radii x y z c nx ny nz nc integral radii.length

/-- Entry `ir` of `average_features` in terms of the step function and the
previously written entry. -/
lemma average_features_getD (radii : List ℕ) (x y c nx ny nc : ℕ)
    (integral : ℕ → ℕ → ℕ → ℚ) (ir : ℕ) (h : ir < radii.length) :
    (average_features radii x y c nx ny nc integral).getD ir 0
      = afStep2 radii x y c nx ny nc integral ir
          ((average_features radii x y c nx ny nc integral).getD (ir - 1) 0) := by
  unfold average_features
  rw [afAux2_getD_eval radii x y c nx ny nc integral ir radii.length h]
  rcases Nat.eq_zero_or_pos ir with h0 | h0
  · subst h0
    simp only [afStep2]
    rcases borderOut2 nx ny x y (radii.getD 0 0) with _ | _ <;> simp
  · rw [afAux2_getD_stable radii x y c nx ny nc integral (ir - 1) ir radii.length
      (by omega) (by omega)]

/-- Entry `ir` of `average_features_3d_is` in terms of the step function. -/
lemma average_features_3d_getD (radii : List ℕ) (x y z c nx ny nz nc : ℕ)
    (integral : ℕ → ℕ → ℕ → ℕ → ℚ) (ir : ℕ) (h : ir < radii.length) :
    (average_features_3d_is radii x y z c nx ny nz nc integral).getD ir 0
      = afStep3 radii x y z c nx ny nz nc integral ir
          ((average_features_3d_is radii x y z c nx ny nz nc integral).getD
            (ir - 1) 0) := by
  unfold average_features_3d_is
  rw [afAux3_getD_eval radii x y z c nx ny nz nc integral ir radii.length h]
  rcases Nat.eq_zero_or_pos ir with h0 | h0
  · subst h0
    simp only [afStep3]
    rcases borderOut3 nx ny nz x y z (radii.getD 0 0) with _ | _ <;> simp
  · rw [afAux3_getD_stable radii x y z c nx ny nz nc integral (ir - 1) ir radii.length
      (by omega) (by omega)]

/-- A border radius always yields the placeholder, whatever the integral. -/
lemma average_features_border (radii : List ℕ) (x y c nx ny nc : ℕ)
    (integral : ℕ → ℕ → ℕ → ℚ) (ir : ℕ) (h : ir < radii.length)
    (hb : borderOut2 nx ny x y (radii.getD ir 0) = true) :
    (average_features radii x y c nx ny nc integral).getD ir 0 = 1 / (nc : ℚ) := by
  rw [average_features_getD radii x y c nx ny nc integral ir h]
  simp only [afStep2]
  rw [hb]
  simp

lemma average_features_3d_border (radii : List ℕ) (x y z c nx ny nz nc : ℕ)
    (integral : ℕ → ℕ → ℕ → ℕ → ℚ) (ir : ℕ) (h : ir < radii.length)
    (hb : borderOut3 nx ny nz x y z (radii.getD ir 0) = true) :
    (average_features_3d_is radii x y z c nx ny nz nc integral).getD ir 0
      = 1 / (nc : ℚ) := by
  rw [average_features_3d_getD radii x y z c nx ny nz nc integral ir h]
  simp only [afStep3]
  rw [hb]
  simp

/-! ### Generic evaluation of loops of disjoint writes -/

/-- Folding a body that writes exactly the cells satisfying `C t`, where the
iteration `t` responsible for a cell is determined by `key`, evaluates to the
unique write (or to the initial array where no iteration writes). -/
lemma foldl_keyed3 (body : (ℕ → ℕ → ℕ → ℚ) → ℕ → (ℕ → ℕ → ℕ → ℚ))
    (C : ℕ → ℕ → ℕ → ℕ → Prop) [∀ t a b j, Decidable (C t a b j)]
    (val : ℕ → ℕ → ℕ → ℕ → ℚ) (key : ℕ → ℕ → ℕ → ℕ)
    (hbody : ∀ rw t a b j,
      body rw t a b j = if C t a b j then val t a b j else rw a b j)
    (hkey : ∀ t a b j, C t a b j → t = key a b j) :
    ∀ (n : ℕ) (r : ℕ → ℕ → ℕ → ℚ) (a b j : ℕ),
      (List.range n).foldl body r a b j
        = if key a b j < n ∧ C (key a b j) a b j then val (key a b j) a b j
          else r a b j := by
  intro n
  induction n with
  | zero =>
      intro r a b j
      simp
  | succ m ih =>
      intro r a b j
      rw [List.range_succ, List.foldl_append, List.foldl_cons, List.foldl_nil,
        hbody]
      by_cases hC : C m a b j
      · have hk := hkey m a b j hC
        rw [if_pos hC, ← hk, if_pos ⟨Nat.lt_succ_self m, hC⟩]
      · rw [if_neg hC, ih r a b j]
        by_cases h2 : key a b j < m ∧ C (key a b j) a b j
        · rw [if_pos h2, if_pos ⟨Nat.lt_succ_of_lt h2.1, h2.2⟩]
        · have h3 : ¬(key a b j < m + 1 ∧ C (key a b j) a b j) := by
            rintro ⟨hlt, hCk⟩
            rcases Nat.lt_succ_iff_lt_or_eq.mp hlt with h | h
            · exact h2 ⟨h, hCk⟩
            · rw [h] at hCk
              exact hC hCk
          rw [if_neg h2, if_neg h3]

/-- Four-index version of `foldl_keyed3`. -/
lemma foldl_keyed4 (body : (ℕ → ℕ → ℕ → ℕ → ℚ) → ℕ → (ℕ → ℕ → ℕ → ℕ → ℚ))
    (C : ℕ → ℕ → ℕ → ℕ → ℕ → Prop) [∀ t a b d j, Decidable (C t a b d j)]
    (val : ℕ → ℕ → ℕ → ℕ → ℕ → ℚ) (key : ℕ → ℕ → ℕ → ℕ → ℕ)
    (hbody : ∀ rw t a b d j,
      body rw t a b d j = if C t a b d j then val t a b d j else rw a b d j)
    (hkey : ∀ t a b d j, C t a b d j → t = key a b d j) :
    ∀ (n : ℕ) (r : ℕ → ℕ → ℕ → ℕ → ℚ) (a b d j : ℕ),
      (List.range n).foldl body r a b d j
        = if key a b d j < n ∧ C (key a b d j) a b d j then val (key a b d j) a b d j
          else r a b d j := by
  intro n
  induction n with
  | zero =>
      intro r a b d j
      simp
  | succ m ih =>
      intro r a b d j
      rw [List.range_succ, List.foldl_append, List.foldl_cons, List.foldl_nil,
        hbody]
      by_cases hC : C m a b d j
      · have hk := hkey m a b d j hC
        rw [if_pos hC, ← hk, if_pos ⟨Nat.lt_succ_self m, hC⟩]
      · rw [if_neg hC, ih r a b d j]
        by_cases h2 : key a b d j < m ∧ C (key a b d j) a b d j
        · rw [if_pos h2, if_pos ⟨Nat.lt_succ_of_lt h2.1, h2.2⟩]
        · have h3 : ¬(key a b d j < m + 1 ∧ C (key a b d j) a b d j) := by
            rintro ⟨hlt, hCk⟩
            rcases Nat.lt_succ_iff_lt_or_eq.mp hlt with h | h
            · exact h2 ⟨h, hCk⟩
            · rw [h] at hCk
              exact hC hCk
          rw [if_neg h2, if_neg h3]

/-- Evaluation of one write loop `for ii in [0,n): res(x, y, base+ii) = v ii`. -/
lemma writeFold3_eval (v : ℕ → ℚ) (x y base n : ℕ) (r0 : ℕ → ℕ → ℕ → ℚ)
    (a b j : ℕ) :
    ((List.range n).foldl (fun rw ii => upd3 rw x y (base + ii) (v ii)) r0) a b j
      = if a = x ∧ b = y ∧ base ≤ j ∧ j < base + n then v (j - base)
        else r0 a b j := by
  rw [foldl_keyed3 (fun rw ii => upd3 rw x y (base + ii) (v ii))
    (fun t a b j => a = x ∧ b = y ∧ j = base + t) (fun t _ _ _ => v t)
    (fun _ _ j => j - base) (fun rw t a b j => rfl)
    (fun t a b j h => show t = j - base by omega) n r0 a b j]
  by_cases h : a = x ∧ b = y ∧ base ≤ j ∧ j < base + n
  · rw [if_pos ⟨by omega, h.1, h.2.1, by omega⟩]
    rw [if_pos h]
  · have h3 : ¬(j - base < n ∧ (a = x ∧ b = y ∧ j = base + (j - base))) := by
      rintro ⟨h1, h2, h4, h5⟩
      exact h ⟨h2, h4, by omega, by omega⟩
    rw [if_neg h3, if_neg h]

/-- Evaluation of one write loop into a four-index array. -/
lemma writeFold4_eval (v : ℕ → ℚ) (x y z base n : ℕ)
    (r0 : ℕ → ℕ → ℕ → ℕ → ℚ) (a b d j : ℕ) :
    ((List.range n).foldl (fun rw ii => upd4 rw x y z (base + ii) (v ii)) r0) a b d j
      = if a = x ∧ b = y ∧ d = z ∧ base ≤ j ∧ j < base + n then v (j - base)
        else r0 a b d j := by
  rw [foldl_keyed4 (fun rw ii => upd4 rw x y z (base + ii) (v ii))
    (fun t a b d j => a = x ∧ b = y ∧ d = z ∧ j = base + t) (fun t _ _ _ _ => v t)
    (fun _ _ _ j => j - base) (fun rw t a b d j => rfl)
    (fun t a b d j h => show t = j - base by omega) n r0 a b d j]
  by_cases h : a = x ∧ b = y ∧ d = z ∧ base ≤ j ∧ j < base + n
  · rw [if_pos ⟨by omega, h.1, h.2.1, h.2.2.1, by omega⟩]
    rw [if_pos h]
  · have h3 : ¬(j - base < n ∧ (a = x ∧ b = y ∧ d = z ∧ j = base + (j - base))) := by
      rintro ⟨h1, h2, h4, h5, h6⟩
      exact h ⟨h2, h4, h5, by omega, by omega⟩
    rw [if_neg h3, if_neg h]

/-! ### Closed form of the mean-only 2D driver loop -/

/-- Pointwise value of the output array produced by the `avContext2Dmulti`
loops: inside the grid and inside the written channel window
`[0, nclasses*n_radii)` the cell `(a, b, c*n_radii + ii)` holds `newf[ii]` of
location `(a,b)` and channel `c`; every other cell is untouched. -/
lemma avLoop2_eval (sizes : List ℕ) (nx ny nc : ℕ) (integral : ℕ → ℕ → ℕ → ℚ)
    (res0 : ℕ → ℕ → ℕ → ℚ) (a b j : ℕ) :
    avLoop2 sizes nx ny nc integral res0 a b j
      = if a < nx ∧ b < ny ∧ j < nc * sizes.length
        then (average_features sizes a b (j / sizes.length) nx ny nc
          integral).getD (j % sizes.length) 0
        else res0 a b j := by
  have hY : ∀ (cc xx : ℕ) (r0 : ℕ → ℕ → ℕ → ℚ) (a2 b2 j2 : ℕ),
      ((List.range ny).foldl (fun ry y =>
          (List.range sizes.length).foldl
            (fun rw ii => upd3 rw xx y (cc * sizes.length + ii)
              ((average_features sizes xx y cc nx ny nc integral).getD ii 0)) ry)
        r0) a2 b2 j2
        = if a2 = xx ∧ b2 < ny ∧ cc * sizes.length ≤ j2 ∧
            j2 < cc * sizes.length + sizes.length
          then (average_features sizes xx b2 cc nx ny nc integral).getD
            (j2 - cc * sizes.length) 0
          else r0 a2 b2 j2 := by
    intro cc xx r0 a2 b2 j2
    have h1 := foldl_keyed3
      (fun ry y => (List.range sizes.length).foldl
        (fun rw ii => upd3 rw xx y (cc * sizes.length + ii)
          ((average_features sizes xx y cc nx ny nc integral).getD ii 0)) ry)
      (fun t a3 b3 j3 => a3 = xx ∧ b3 = t ∧ cc * sizes.length ≤ j3 ∧
        j3 < cc * sizes.length + sizes.length)
      (fun t a3 b3 j3 => (average_features sizes xx t cc nx ny nc integral).getD
        (j3 - cc * sizes.length) 0)
      (fun _ b3 _ => b3)
      (fun r1 t a3 b3 j3 => writeFold3_eval
        (fun ii => (average_features sizes xx t cc nx ny nc integral).getD ii 0)
        xx t (cc * sizes.length) sizes.length r1 a3 b3 j3)
      (fun t a3 b3 j3 h => h.2.1.symm)
      ny r0 a2 b2 j2
    refine h1.trans ?_
    split_ifs with hA hB hC
    · rfl
    · exact absurd ⟨hA.2.1, hA.1, hA.2.2.2⟩ hB
    · exact absurd ⟨hC.2.1, hC.1, rfl, hC.2.2⟩ hA
    · rfl
  have hX : ∀ (cc : ℕ) (r0 : ℕ → ℕ → ℕ → ℚ) (a2 b2 j2 : ℕ),
      ((List.range nx).foldl (fun rx x =>
          (List.range ny).foldl (fun ry y =>
            (List.range sizes.length).foldl
              (fun rw ii => upd3 rw x y (cc * sizes.length + ii)
                ((average_features sizes x y cc nx ny nc integral).getD ii 0)) ry)
            rx) r0) a2 b2 j2
        = if a2 < nx ∧ b2 < ny ∧ cc * sizes.length ≤ j2 ∧
            j2 < cc * sizes.length + sizes.length
          then (average_features sizes a2 b2 cc nx ny nc integral).getD
            (j2 - cc * sizes.length) 0
          else r0 a2 b2 j2 := by
    intro cc r0 a2 b2 j2
    have h1 := foldl_keyed3
      (fun rx x => (List.range ny).foldl (fun ry y =>
          (List.range sizes.length).foldl
            (fun rw ii => upd3 rw x y (cc * sizes.length + ii)
              ((average_features sizes x y cc nx ny nc integral).getD ii 0)) ry)
        rx)
      (fun t a3 b3 j3 => a3 = t ∧ b3 < ny ∧ cc * sizes.length ≤ j3 ∧
        j3 < cc * sizes.length + sizes.length)
      (fun t a3 b3 j3 => (average_features sizes t b3 cc nx ny nc integral).getD
        (j3 - cc * sizes.length) 0)
      (fun a3 _ _ => a3)
      (fun r1 t a3 b3 j3 => hY cc t r1 a3 b3 j3)
      (fun t a3 b3 j3 h => h.1.symm)
      nx r0 a2 b2 j2
    refine h1.trans ?_
    split_ifs with hA hB hC
    · rfl
    · exact absurd ⟨hA.1, hA.2.2⟩ hB
    · exact absurd ⟨hC.1, rfl, hC.2⟩ hA
    · rfl
  have hC := foldl_keyed3
    (fun rc c => (List.range nx).foldl (fun rx x =>
        (List.range ny).foldl (fun ry y =>
          (List.range sizes.length).foldl
            (fun rw ii => upd3 rw x y (c * sizes.length + ii)
              ((average_features sizes x y c nx ny nc integral).getD ii 0)) ry)
          rx) rc)
    (fun t a3 b3 j3 => a3 < nx ∧ b3 < ny ∧ t * sizes.length ≤ j3 ∧
      j3 < t * sizes.length + sizes.length)
    (fun t a3 b3 j3 => (average_features sizes a3 b3 t nx ny nc integral).getD
      (j3 - t * sizes.length) 0)
    (fun _ _ j3 => j3 / sizes.length)
    (fun r1 t a3 b3 j3 => hX t r1 a3 b3 j3)
    (fun t a3 b3 j3 h => show t = j3 / sizes.length from
      (Nat.div_eq_of_lt_le h.2.2.1 (by rw [Nat.succ_mul]; exact h.2.2.2)).symm)
    nc res0 a b j
  refine Eq.trans (show avLoop2 sizes nx ny nc integral res0 a b j = _ from hC) ?_
  split_ifs with hA hB hC
  · rcases hA with ⟨hq, hx2, hy2, hlo, hhi⟩
    have hdm := Nat.div_add_mod j sizes.length
    have hcm : sizes.length * (j / sizes.length)
        = j / sizes.length * sizes.length := Nat.mul_comm _ _
    have hsub : j - j / sizes.length * sizes.length = j % sizes.length := by omega
    show (average_features sizes a b (j / sizes.length) nx ny nc integral).getD
      (j - j / sizes.length * sizes.length) 0 = _
    rw [hsub]
  · rcases hA with ⟨hq, hx2, hy2, hlo, hhi⟩
    have hlen : 0 < sizes.length := by omega
    exact absurd ⟨hx2, hy2, (Nat.div_lt_iff_lt_mul hlen).mp hq⟩ hB
  · rcases hC with ⟨hx2, hy2, hj⟩
    by_cases hlen0 : sizes.length = 0
    · rw [hlen0, Nat.mul_zero] at hj
      omega
    · have hlen : 0 < sizes.length := Nat.pos_of_ne_zero hlen0
      have hq : j / sizes.length < nc := (Nat.div_lt_iff_lt_mul hlen).mpr hj
      have hlo := Nat.div_mul_le_self j sizes.length
      have hdm := Nat.div_add_mod j sizes.length
      have hml := Nat.mod_lt j hlen
      have hcm : sizes.length * (j / sizes.length)
          = j / sizes.length * sizes.length := Nat.mul_comm _ _
      exact absurd ⟨hq, hx2, hy2, hlo, by omega⟩ hA
  · rfl

/-! ### Closed form of the mean+variance 2D driver loop -/

/-- Pointwise value of the output array produced by the `varContext2Dmulti`
loops: for `a < nx`, `b < ny` and `j < nclasses*2*n_radii`, writing
`c = j / (2*n_radii)` and `off = j % (2*n_radii)`, the cell holds the mean
`newf[off]` when `off < n_radii` and the variance
`newf2[off-n_radii] - newf[off-n_radii]²` otherwise; all other cells are
untouched. -/
lemma varLoop2_eval (sizes : List ℕ) (nx ny nc : ℕ)
    (integral integral2 : ℕ → ℕ → ℕ → ℚ)
    (res0 : ℕ → ℕ → ℕ → ℚ) (a b j : ℕ) :
    varLoop2 sizes nx ny nc integral integral2 res0 a b j
      = if a < nx ∧ b < ny ∧ j < nc * (2 * sizes.length)
        then (if j % (2 * sizes.length) < sizes.length
          then (average_features sizes a b (j / (2 * sizes.length)) nx ny nc
            integral).getD (j % (2 * sizes.length)) 0
          else (average_features sizes a b (j / (2 * sizes.length)) nx ny nc
            integral2).getD (j % (2 * sizes.length) - sizes.length) 0
            - (average_features sizes a b (j / (2 * sizes.length)) nx ny nc
              integral).getD (j % (2 * sizes.length) - sizes.length) 0
              * (average_features sizes a b (j / (2 * sizes.length)) nx ny nc
                integral).getD (j % (2 * sizes.length) - sizes.length) 0)
        else res0 a b j := by
  have hW : ∀ (cc xx yy : ℕ) (r0 : ℕ → ℕ → ℕ → ℚ) (a2 b2 j2 : ℕ),
      ((List.range sizes.length).foldl
        (fun rw ii => upd3 rw xx yy (cc * 2 * sizes.length + sizes.length + ii)
          ((average_features sizes xx yy cc nx ny nc integral2).getD ii 0
            - (average_features sizes xx yy cc nx ny nc integral).getD ii 0
              * (average_features sizes xx yy cc nx ny nc integral).getD ii 0))
        ((List.range sizes.length).foldl
          (fun rw ii => upd3 rw xx yy (cc * 2 * sizes.length + ii)
            ((average_features sizes xx yy cc nx ny nc integral).getD ii 0))
          r0)) a2 b2 j2
        = if a2 = xx ∧ b2 = yy ∧ cc * 2 * sizes.length ≤ j2 ∧
            j2 < cc * 2 * sizes.length + 2 * sizes.length
          then (if j2 < cc * 2 * sizes.length + sizes.length
            then (average_features sizes xx yy cc nx ny nc integral).getD
              (j2 - cc * 2 * sizes.length) 0
            else (average_features sizes xx yy cc nx ny nc integral2).getD
              (j2 - (cc * 2 * sizes.length + sizes.length)) 0
              - (average_features sizes xx yy cc nx ny nc integral).getD
                (j2 - (cc * 2 * sizes.length + sizes.length)) 0
                * (average_features sizes xx yy cc nx ny nc integral).getD
                  (j2 - (cc * 2 * sizes.length + sizes.length)) 0)
          else r0 a2 b2 j2 := by
    intro cc xx yy r0 a2 b2 j2
    refine Eq.trans (writeFold3_eval
      (fun ii => (average_features sizes xx yy cc nx ny nc integral2).getD ii 0
        - (average_features sizes xx yy cc nx ny nc integral).getD ii 0
          * (average_features sizes xx yy cc nx ny nc integral).getD ii 0)
      xx yy (cc * 2 * sizes.length + sizes.length) sizes.length _ a2 b2 j2) ?_
    beta_reduce
    by_cases hhigh : a2 = xx ∧ b2 = yy ∧
        cc * 2 * sizes.length + sizes.length ≤ j2 ∧
        j2 < cc * 2 * sizes.length + sizes.length + sizes.length
    · rw [if_pos hhigh,
        if_pos (show a2 = xx ∧ b2 = yy ∧ cc * 2 * sizes.length ≤ j2 ∧
          j2 < cc * 2 * sizes.length + 2 * sizes.length from
          ⟨hhigh.1, hhigh.2.1, by omega, by omega⟩),
        if_neg (show ¬j2 < cc * 2 * sizes.length + sizes.length by omega)]
    · rw [if_neg hhigh]
      refine Eq.trans (writeFold3_eval
        (fun ii => (average_features sizes xx yy cc nx ny nc integral).getD ii 0)
        xx yy (cc * 2 * sizes.length) sizes.length r0 a2 b2 j2) ?_
      beta_reduce
      by_cases hlow : a2 = xx ∧ b2 = yy ∧ cc * 2 * sizes.length ≤ j2 ∧
          j2 < cc * 2 * sizes.length + sizes.length
      · rw [if_pos hlow,
          if_pos (show a2 = xx ∧ b2 = yy ∧ cc * 2 * sizes.length ≤ j2 ∧
            j2 < cc * 2 * sizes.length + 2 * sizes.length from
            ⟨hlow.1, hlow.2.1, hlow.2.2.1, by omega⟩),
          if_pos hlow.2.2.2]
      · rw [if_neg hlow,
          if_neg (show ¬(a2 = xx ∧ b2 = yy ∧ cc * 2 * sizes.length ≤ j2 ∧
            j2 < cc * 2 * sizes.length + 2 * sizes.length) from by
            rintro ⟨ha, hb, hlo2, hhi2⟩
            by_cases hsplit : j2 < cc * 2 * sizes.length + sizes.length
            · exact hlow ⟨ha, hb, hlo2, hsplit⟩
            · exact hhigh ⟨ha, hb, by omega, by omega⟩)]
  have hY : ∀ (cc xx : ℕ) (r0 : ℕ → ℕ → ℕ → ℚ) (a2 b2 j2 : ℕ),
      ((List.range ny).foldl (fun ry y =>
        (List.range sizes.length).foldl
          (fun rw ii => upd3 rw xx y (cc * 2 * sizes.length + sizes.length + ii)
            ((average_features sizes xx y cc nx ny nc integral2).getD ii 0
              - (average_features sizes xx y cc nx ny nc integral).getD ii 0
                * (average_features sizes xx y cc nx ny nc integral).getD ii 0))
          ((List.range sizes.length).foldl
            (fun rw ii => upd3 rw xx y (cc * 2 * sizes.length + ii)
              ((average_features sizes xx y cc nx ny nc integral).getD ii 0))
            ry)) r0) a2 b2 j2
        = if a2 = xx ∧ b2 < ny ∧ cc * 2 * sizes.length ≤ j2 ∧
            j2 < cc * 2 * sizes.length + 2 * sizes.length
          then (if j2 < cc * 2 * sizes.length + sizes.length
            then (average_features sizes xx b2 cc nx ny nc integral).getD
              (j2 - cc * 2 * sizes.length) 0
            else (average_features sizes xx b2 cc nx ny nc integral2).getD
              (j2 - (cc * 2 * sizes.length + sizes.length)) 0
              - (average_features sizes xx b2 cc nx ny nc integral).getD
                (j2 - (cc * 2 * sizes.length + sizes.length)) 0
                * (average_features sizes xx b2 cc nx ny nc integral).getD
                  (j2 - (cc * 2 * sizes.length + sizes.length)) 0)
          else r0 a2 b2 j2 := by
    intro cc xx r0 a2 b2 j2
    have h1 := foldl_keyed3 _
      (fun t a3 b3 j3 => a3 = xx ∧ b3 = t ∧ cc * 2 * sizes.length ≤ j3 ∧
        j3 < cc * 2 * sizes.length + 2 * sizes.length)
      (fun t a3 b3 j3 => if j3 < cc * 2 * sizes.length + sizes.length
        then (average_features sizes xx t cc nx ny nc integral).getD
          (j3 - cc * 2 * sizes.length) 0
        else (average_features sizes xx t cc nx ny nc integral2).getD
          (j3 - (cc * 2 * sizes.length + sizes.length)) 0
          - (average_features sizes xx t cc nx ny nc integral).getD
            (j3 - (cc * 2 * sizes.length + sizes.length)) 0
            * (average_features sizes xx t cc nx ny nc integral).getD
              (j3 - (cc * 2 * sizes.length + sizes.length)) 0)
      (fun _ b3 _ => b3)
      (fun r1 t a3 b3 j3 => hW cc xx t r1 a3 b3 j3)
      (fun t a3 b3 j3 h => h.2.1.symm)
      ny r0 a2 b2 j2
    refine h1.trans ?_
    by_cases h : a2 = xx ∧ b2 < ny ∧ cc * 2 * sizes.length ≤ j2 ∧
        j2 < cc * 2 * sizes.length + 2 * sizes.length
    · rw [if_pos (show b2 < ny ∧ a2 = xx ∧ b2 = b2 ∧
          cc * 2 * sizes.length ≤ j2 ∧
          j2 < cc * 2 * sizes.length + 2 * sizes.length from
          ⟨h.2.1, h.1, rfl, h.2.2⟩), if_pos h]
    · rw [if_neg (show ¬(b2 < ny ∧ a2 = xx ∧ b2 = b2 ∧
          cc * 2 * sizes.length ≤ j2 ∧
          j2 < cc * 2 * sizes.length + 2 * sizes.length) from
          fun hcon => h ⟨hcon.2.1, hcon.1, hcon.2.2.2⟩), if_neg h]
  have hX : ∀ (cc : ℕ) (r0 : ℕ → ℕ → ℕ → ℚ) (a2 b2 j2 : ℕ),
      ((List.range nx).foldl (fun rx x =>
        (List.range ny).foldl (fun ry y =>
          (List.range sizes.length).foldl
            (fun rw ii => upd3 rw x y (cc * 2 * sizes.length + sizes.length + ii)
              ((average_features sizes x y cc nx ny nc integral2).getD ii 0
                - (average_features sizes x y cc nx ny nc integral).getD ii 0
                  * (average_features sizes x y cc nx ny nc integral).getD ii 0))
            ((List.range sizes.length).foldl
              (fun rw ii => upd3 rw x y (cc * 2 * sizes.length + ii)
                ((average_features sizes x y cc nx ny nc integral).getD ii 0))
              ry)) rx) r0) a2 b2 j2
        = if a2 < nx ∧ b2 < ny ∧ cc * 2 * sizes.length ≤ j2 ∧
            j2 < cc * 2 * sizes.length + 2 * sizes.length
          then (if j2 < cc * 2 * sizes.length + sizes.length
            then (average_features sizes a2 b2 cc nx ny nc integral).getD
              (j2 - cc * 2 * sizes.length) 0
            else (average_features sizes a2 b2 cc nx ny nc integral2).getD
              (j2 - (cc * 2 * sizes.length + sizes.length)) 0
              - (average_features sizes a2 b2 cc nx ny nc integral).getD
                (j2 - (cc * 2 * sizes.length + sizes.length)) 0
                * (average_features sizes a2 b2 cc nx ny nc integral).getD
                  (j2 - (cc * 2 * sizes.length + sizes.length)) 0)
          else r0 a2 b2 j2 := by
    intro cc r0 a2 b2 j2
    have h1 := foldl_keyed3 _
      (fun t a3 b3 j3 => a3 = t ∧ b3 < ny ∧ cc * 2 * sizes.length ≤ j3 ∧
        j3 < cc * 2 * sizes.length + 2 * sizes.length)
      (fun t a3 b3 j3 => if j3 < cc * 2 * sizes.length + sizes.length
        then (average_features sizes t b3 cc nx ny nc integral).getD
          (j3 - cc * 2 * sizes.length) 0
        else (average_features sizes t b3 cc nx ny nc integral2).getD
          (j3 - (cc * 2 * sizes.length + sizes.length)) 0
          - (average_features sizes t b3 cc nx ny nc integral).getD
            (j3 - (cc * 2 * sizes.length + sizes.length)) 0
            * (average_features sizes t b3 cc nx ny nc integral).getD
              (j3 - (cc * 2 * sizes.length + sizes.length)) 0)
      (fun a3 _ _ => a3)
      (fun r1 t a3 b3 j3 => hY cc t r1 a3 b3 j3)
      (fun t a3 b3 j3 h => h.1.symm)
      nx r0 a2 b2 j2
    refine h1.trans ?_
    by_cases h : a2 < nx ∧ b2 < ny ∧ cc * 2 * sizes.length ≤ j2 ∧
        j2 < cc * 2 * sizes.length + 2 * sizes.length
    · rw [if_pos (show a2 < nx ∧ a2 = a2 ∧ b2 < ny ∧
          cc * 2 * sizes.length ≤ j2 ∧
          j2 < cc * 2 * sizes.length + 2 * sizes.length from
          ⟨h.1, rfl, h.2⟩), if_pos h]
    · rw [if_neg (show ¬(a2 < nx ∧ a2 = a2 ∧ b2 < ny ∧
          cc * 2 * sizes.length ≤ j2 ∧
          j2 < cc * 2 * sizes.length + 2 * sizes.length) from
          fun hcon => h ⟨hcon.1, hcon.2.2⟩), if_neg h]
  have hC := foldl_keyed3 _
    (fun t a3 b3 j3 => a3 < nx ∧ b3 < ny ∧ t * 2 * sizes.length ≤ j3 ∧
      j3 < t * 2 * sizes.length + 2 * sizes.length)
    (fun t a3 b3 j3 => if j3 < t * 2 * sizes.length + sizes.length
      then (average_features sizes a3 b3 t nx ny nc integral).getD
        (j3 - t * 2 * sizes.length) 0
      else (average_features sizes a3 b3 t nx ny nc integral2).getD
        (j3 - (t * 2 * sizes.length + sizes.length)) 0
        - (average_features sizes a3 b3 t nx ny nc integral).getD
          (j3 - (t * 2 * sizes.length + sizes.length)) 0
          * (average_features sizes a3 b3 t nx ny nc integral).getD
            (j3 - (t * 2 * sizes.length + sizes.length)) 0)
    (fun _ _ j3 => j3 / (2 * sizes.length))
    (fun r1 t a3 b3 j3 => hX t r1 a3 b3 j3)
    (fun t a3 b3 j3 h => show t = j3 / (2 * sizes.length) from
      (Nat.div_eq_of_lt_le
        (by rw [← Nat.mul_assoc]; exact h.2.2.1)
        (by rw [Nat.succ_mul, ← Nat.mul_assoc]; exact h.2.2.2)).symm)
    nc res0 a b j
  refine Eq.trans
    (show varLoop2 sizes nx ny nc integral integral2 res0 a b j = _ from hC) ?_
  beta_reduce
  by_cases houter : a < nx ∧ b < ny ∧ j < nc * (2 * sizes.length)
  · rcases houter with ⟨hx2, hy2, hj⟩
    have h2len : 0 < 2 * sizes.length := by
      rcases Nat.eq_zero_or_pos (2 * sizes.length) with h0 | h0
      · rw [h0, Nat.mul_zero] at hj
        omega
      · exact h0
    have hq : j / (2 * sizes.length) < nc := (Nat.div_lt_iff_lt_mul h2len).mpr hj
    have hdm := Nat.div_add_mod j (2 * sizes.length)
    have hml := Nat.mod_lt j h2len
    have hcm : 2 * sizes.length * (j / (2 * sizes.length))
        = j / (2 * sizes.length) * 2 * sizes.length := by ring
    rw [if_pos (show j / (2 * sizes.length) < nc ∧ a < nx ∧ b < ny ∧
        j / (2 * sizes.length) * 2 * sizes.length ≤ j ∧
        j < j / (2 * sizes.length) * 2 * sizes.length + 2 * sizes.length from
        ⟨hq, hx2, hy2, by omega, by omega⟩),
      if_pos (show a < nx ∧ b < ny ∧ j < nc * (2 * sizes.length) from
        ⟨hx2, hy2, hj⟩)]
    by_cases hlow : j % (2 * sizes.length) < sizes.length
    · rw [if_pos (show j < j / (2 * sizes.length) * 2 * sizes.length +
          sizes.length by omega), if_pos hlow,
        show j - j / (2 * sizes.length) * 2 * sizes.length
          = j % (2 * sizes.length) by omega]
    · rw [if_neg (show ¬j < j / (2 * sizes.length) * 2 * sizes.length +
          sizes.length by omega), if_neg hlow,
        show j - (j / (2 * sizes.length) * 2 * sizes.length + sizes.length)
          = j % (2 * sizes.length) - sizes.length by omega]
  · rw [if_neg houter, if_neg (show ¬(j / (2 * sizes.length) < nc ∧ a < nx ∧
        b < ny ∧ j / (2 * sizes.length) * 2 * sizes.length ≤ j ∧
        j < j / (2 * sizes.length) * 2 * sizes.length + 2 * sizes.length) from by
      rintro ⟨hq, hx2, hy2, hlo, hhi⟩
      have h2len : 0 < 2 * sizes.length := by omega
      exact houter ⟨hx2, hy2, (Nat.div_lt_iff_lt_mul h2len).mp hq⟩)]

/-! ### Closed form of the mean+variance 3D driver loop -/

/-- Pointwise value of the output array produced by the `varContext3Dmulti`
loops, analogous to `varLoop2_eval`. -/
lemma varLoop3_eval (sizes : List ℕ) (nx ny nz nc : ℕ)
    (integral integral2 : ℕ → ℕ → ℕ → ℕ → ℚ)
    (res0 : ℕ → ℕ → ℕ → ℕ → ℚ) (a b d j : ℕ) :
    varLoop3 sizes nx ny nz nc integral integral2 res0 a b d j
      = if a < nx ∧ b < ny ∧ d < nz ∧ j < nc * (2 * sizes.length)
        then (if j % (2 * sizes.length) < sizes.length
          then (average_features_3d_is sizes a b d (j / (2 * sizes.length))
            nx ny nz nc integral).getD (j % (2 * sizes.length)) 0
          else (average_features_3d_is sizes a b d (j / (2 * sizes.length))
            nx ny nz nc integral2).getD (j % (2 * sizes.length) - sizes.length) 0
            - (average_features_3d_is sizes a b d (j / (2 * sizes.length))
              nx ny nz nc integral).getD (j % (2 * sizes.length) - sizes.length) 0
              * (average_features_3d_is sizes a b d (j / (2 * sizes.length))
                nx ny nz nc integral).getD (j % (2 * sizes.length) - sizes.length) 0)
        else res0 a b d j := by
  have hW : ∀ (cc xx yy zz : ℕ) (r0 : ℕ → ℕ → ℕ → ℕ → ℚ) (a2 b2 d2 j2 : ℕ),
      ((List.range sizes.length).foldl
        (fun rw ii => upd4 rw xx yy zz (cc * 2 * sizes.length + sizes.length + ii)
          ((average_features_3d_is sizes xx yy zz cc nx ny nz nc integral2).getD ii 0
            - (average_features_3d_is sizes xx yy zz cc nx ny nz nc integral).getD ii 0
              * (average_features_3d_is sizes xx yy zz cc nx ny nz nc integral).getD ii 0))
        ((List.range sizes.length).foldl
          (fun rw ii => upd4 rw xx yy zz (cc * 2 * sizes.length + ii)
            ((average_features_3d_is sizes xx yy zz cc nx ny nz nc integral).getD ii 0))
          r0)) a2 b2 d2 j2
        = if a2 = xx ∧ b2 = yy ∧ d2 = zz ∧ cc * 2 * sizes.length ≤ j2 ∧
            j2 < cc * 2 * sizes.length + 2 * sizes.length
          then (if j2 < cc * 2 * sizes.length + sizes.length
            then (average_features_3d_is sizes xx yy zz cc nx ny nz nc integral).getD
              (j2 - cc * 2 * sizes.length) 0
            else (average_features_3d_is sizes xx yy zz cc nx ny nz nc integral2).getD
              (j2 - (cc * 2 * sizes.length + sizes.length)) 0
              - (average_features_3d_is sizes xx yy zz cc nx ny nz nc integral).getD
                (j2 - (cc * 2 * sizes.length + sizes.length)) 0
                * (average_features_3d_is sizes xx yy zz cc nx ny nz nc integral).getD
                  (j2 - (cc * 2 * sizes.length + sizes.length)) 0)
          else r0 a2 b2 d2 j2 := by
    intro cc xx yy zz r0 a2 b2 d2 j2
    refine Eq.trans (writeFold4_eval
      (fun ii => (average_features_3d_is sizes xx yy zz cc nx ny nz nc integral2).getD ii 0
        - (average_features_3d_is sizes xx yy zz cc nx ny nz nc integral).getD ii 0
          * (average_features_3d_is sizes xx yy zz cc nx ny nz nc integral).getD ii 0)
      xx yy zz (cc * 2 * sizes.length + sizes.length) sizes.length _ a2 b2 d2 j2) ?_
    beta_reduce
    by_cases hhigh : a2 = xx ∧ b2 = yy ∧ d2 = zz ∧
        cc * 2 * sizes.length + sizes.length ≤ j2 ∧
        j2 < cc * 2 * sizes.length + sizes.length + sizes.length
    · rw [if_pos hhigh,
        if_pos (show a2 = xx ∧ b2 = yy ∧ d2 = zz ∧ cc * 2 * sizes.length ≤ j2 ∧
          j2 < cc * 2 * sizes.length + 2 * sizes.length from
          ⟨hhigh.1, hhigh.2.1, hhigh.2.2.1, by omega, by omega⟩),
        if_neg (show ¬j2 < cc * 2 * sizes.length + sizes.length by omega)]
    · rw [if_neg hhigh]
      refine Eq.trans (writeFold4_eval
        (fun ii => (average_features_3d_is sizes xx yy zz cc nx ny nz nc integral).getD ii 0)
        xx yy zz (cc * 2 * sizes.length) sizes.length r0 a2 b2 d2 j2) ?_
      beta_reduce
      by_cases hlow : a2 = xx ∧ b2 = yy ∧ d2 = zz ∧ cc * 2 * sizes.length ≤ j2 ∧
          j2 < cc * 2 * sizes.length + sizes.length
      · rw [if_pos hlow,
          if_pos (show a2 = xx ∧ b2 = yy ∧ d2 = zz ∧ cc * 2 * sizes.length ≤ j2 ∧
            j2 < cc * 2 * sizes.length + 2 * sizes.length from
            ⟨hlow.1, hlow.2.1, hlow.2.2.1, hlow.2.2.2.1, by omega⟩),
          if_pos hlow.2.2.2.2]
      · rw [if_neg hlow,
          if_neg (show ¬(a2 = xx ∧ b2 = yy ∧ d2 = zz ∧ cc * 2 * sizes.length ≤ j2 ∧
            j2 < cc * 2 * sizes.length + 2 * sizes.length) from by
            rintro ⟨ha, hb, hd, hlo2, hhi2⟩
            by_cases hsplit : j2 < cc * 2 * sizes.length + sizes.length
            · exact hlow ⟨ha, hb, hd, hlo2, hsplit⟩
            · exact hhigh ⟨ha, hb, hd, by omega, by omega⟩)]
  have hZ : ∀ (cc xx yy : ℕ) (r0 : ℕ → ℕ → ℕ → ℕ → ℚ) (a2 b2 d2 j2 : ℕ),
      ((List.range nz).foldl (fun rz z =>
        (List.range sizes.length).foldl
          (fun rw ii => upd4 rw xx yy z (cc * 2 * sizes.length + sizes.length + ii)
            ((average_features_3d_is sizes xx yy z cc nx ny nz nc integral2).getD ii 0
              - (average_features_3d_is sizes xx yy z cc nx ny nz nc integral).getD ii 0
                * (average_features_3d_is sizes xx yy z cc nx ny nz nc integral).getD ii 0))
          ((List.range sizes.length).foldl
            (fun rw ii => upd4 rw xx yy z (cc * 2 * sizes.length + ii)
              ((average_features_3d_is sizes xx yy z cc nx ny nz nc integral).getD ii 0))
            rz)) r0) a2 b2 d2 j2
        = if a2 = xx ∧ b2 = yy ∧ d2 < nz ∧ cc * 2 * sizes.length ≤ j2 ∧
            j2 < cc * 2 * sizes.length + 2 * sizes.length
          then (if j2 < cc * 2 * sizes.length + sizes.length
            then (average_features_3d_is sizes xx yy d2 cc nx ny nz nc integral).getD
              (j2 - cc * 2 * sizes.length) 0
            else (average_features_3d_is sizes xx yy d2 cc nx ny nz nc integral2).getD
              (j2 - (cc * 2 * sizes.length + sizes.length)) 0
              - (average_features_3d_is sizes xx yy d2 cc nx ny nz nc integral).getD
                (j2 - (cc * 2 * sizes.length + sizes.length)) 0
                * (average_features_3d_is sizes xx yy d2 cc nx ny nz nc integral).getD
                  (j2 - (cc * 2 * sizes.length + sizes.length)) 0)
          else r0 a2 b2 d2 j2 := by
    intro cc xx yy r0 a2 b2 d2 j2
    have h1 := foldl_keyed4 _
      (fun t a3 b3 d3 j3 => a3 = xx ∧ b3 = yy ∧ d3 = t ∧
        cc * 2 * sizes.length ≤ j3 ∧ j3 < cc * 2 * sizes.length + 2 * sizes.length)
      (fun t a3 b3 d3 j3 => if j3 < cc * 2 * sizes.length + sizes.length
        then (average_features_3d_is sizes xx yy t cc nx ny nz nc integral).getD
          (j3 - cc * 2 * sizes.length) 0
        else (average_features_3d_is sizes xx yy t cc nx ny nz nc integral2).getD
          (j3 - (cc * 2 * sizes.length + sizes.length)) 0
          - (average_features_3d_is sizes xx yy t cc nx ny nz nc integral).getD
            (j3 - (cc * 2 * sizes.length + sizes.length)) 0
            * (average_features_3d_is sizes xx yy t cc nx ny nz nc integral).getD
              (j3 - (cc * 2 * sizes.length + sizes.length)) 0)
      (fun _ _ d3 _ => d3)
      (fun r1 t a3 b3 d3 j3 => hW cc xx yy t r1 a3 b3 d3 j3)
      (fun t a3 b3 d3 j3 h => h.2.2.1.symm)
      nz r0 a2 b2 d2 j2
    refine h1.trans ?_
    by_cases h : a2 = xx ∧ b2 = yy ∧ d2 < nz ∧ cc * 2 * sizes.length ≤ j2 ∧
        j2 < cc * 2 * sizes.length + 2 * sizes.length
    · rw [if_pos (show d2 < nz ∧ a2 = xx ∧ b2 = yy ∧ d2 = d2 ∧
          cc * 2 * sizes.length ≤ j2 ∧
          j2 < cc * 2 * sizes.length + 2 * sizes.length from
          ⟨h.2.2.1, h.1, h.2.1, rfl, h.2.2.2⟩), if_pos h]
    · rw [if_neg (show ¬(d2 < nz ∧ a2 = xx ∧ b2 = yy ∧ d2 = d2 ∧
          cc * 2 * sizes.length ≤ j2 ∧
          j2 < cc * 2 * sizes.length + 2 * sizes.length) from
          fun hcon => h ⟨hcon.2.1, hcon.2.2.1, hcon.1, hcon.2.2.2.2⟩), if_neg h]
  have hY : ∀ (cc xx : ℕ) (r0 : ℕ → ℕ → ℕ → ℕ → ℚ) (a2 b2 d2 j2 : ℕ),
      ((List.range ny).foldl (fun ry y =>
        (List.range nz).foldl (fun rz z =>
          (List.range sizes.length).foldl
            (fun rw ii => upd4 rw xx y z (cc * 2 * sizes.length + sizes.length + ii)
              ((average_features_3d_is sizes xx y z cc nx ny nz nc integral2).getD ii 0
                - (average_features_3d_is sizes xx y z cc nx ny nz nc integral).getD ii 0
                  * (average_features_3d_is sizes xx y z cc nx ny nz nc integral).getD ii 0))
            ((List.range sizes.length).foldl
              (fun rw ii => upd4 rw xx y z (cc * 2 * sizes.length + ii)
                ((average_features_3d_is sizes xx y z cc nx ny nz nc integral).getD ii 0))
              rz)) ry) r0) a2 b2 d2 j2
        = if a2 = xx ∧ b2 < ny ∧ d2 < nz ∧ cc * 2 * sizes.length ≤ j2 ∧
            j2 < cc * 2 * sizes.length + 2 * sizes.length
          then (if j2 < cc * 2 * sizes.length + sizes.length
            then (average_features_3d_is sizes xx b2 d2 cc nx ny nz nc integral).getD
              (j2 - cc * 2 * sizes.length) 0
            else (average_features_3d_is sizes xx b2 d2 cc nx ny nz nc integral2).getD
              (j2 - (cc * 2 * sizes.length + sizes.length)) 0
              - (average_features_3d_is sizes xx b2 d2 cc nx ny nz nc integral).getD
                (j2 - (cc * 2 * sizes.length + sizes.length)) 0
                * (average_features_3d_is sizes xx b2 d2 cc nx ny nz nc integral).getD
                  (j2 - (cc * 2 * sizes.length + sizes.length)) 0)
          else r0 a2 b2 d2 j2 := by
    intro cc xx r0 a2 b2 d2 j2
    have h1 := foldl_keyed4 _
      (fun t a3 b3 d3 j3 => a3 = xx ∧ b3 = t ∧ d3 < nz ∧
        cc * 2 * sizes.length ≤ j3 ∧ j3 < cc * 2 * sizes.length + 2 * sizes.length)
      (fun t a3 b3 d3 j3 => if j3 < cc * 2 * sizes.length + sizes.length
        then (average_features_3d_is sizes xx t d3 cc nx ny nz nc integral).getD
          (j3 - cc * 2 * sizes.length) 0
        else (average_features_3d_is sizes xx t d3 cc nx ny nz nc integral2).getD
          (j3 - (cc * 2 * sizes.length + sizes.length)) 0
          - (average_features_3d_is sizes xx t d3 cc nx ny nz nc integral).getD
            (j3 - (cc * 2 * sizes.length + sizes.length)) 0
            * (average_features_3d_is sizes xx t d3 cc nx ny nz nc integral).getD
              (j3 - (cc * 2 * sizes.length + sizes.length)) 0)
      (fun _ b3 _ _ => b3)
      (fun r1 t a3 b3 d3 j3 => hZ cc xx t r1 a3 b3 d3 j3)
      (fun t a3 b3 d3 j3 h => h.2.1.symm)
      ny r0 a2 b2 d2 j2
    refine h1.trans ?_
    by_cases h : a2 = xx ∧ b2 < ny ∧ d2 < nz ∧ cc * 2 * sizes.length ≤ j2 ∧
        j2 < cc * 2 * sizes.length + 2 * sizes.length
    · rw [if_pos (show b2 < ny ∧ a2 = xx ∧ b2 = b2 ∧ d2 < nz ∧
          cc * 2 * sizes.length ≤ j2 ∧
          j2 < cc * 2 * sizes.length + 2 * sizes.length from
          ⟨h.2.1, h.1, rfl, h.2.2⟩), if_pos h]
    · rw [if_neg (show ¬(b2 < ny ∧ a2 = xx ∧ b2 = b2 ∧ d2 < nz ∧
          cc * 2 * sizes.length ≤ j2 ∧
          j2 < cc * 2 * sizes.length + 2 * sizes.length) from
          fun hcon => h ⟨hcon.2.1, hcon.1, hcon.2.2.2⟩), if_neg h]
  have hX : ∀ (cc : ℕ) (r0 : ℕ → ℕ → ℕ → ℕ → ℚ) (a2 b2 d2 j2 : ℕ),
      ((List.range nx).foldl (fun rx x =>
        (List.range ny).foldl (fun ry y =>
          (List.range nz).foldl (fun rz z =>
            (List.range sizes.length).foldl
              (fun rw ii => upd4 rw x y z (cc * 2 * sizes.length + sizes.length + ii)
                ((average_features_3d_is sizes x y z cc nx ny nz nc integral2).getD ii 0
                  - (average_features_3d_is sizes x y z cc nx ny nz nc integral).getD ii 0
                    * (average_features_3d_is sizes x y z cc nx ny nz nc integral).getD ii 0))
              ((List.range sizes.length).foldl
                (fun rw ii => upd4 rw x y z (cc * 2 * sizes.length + ii)
                  ((average_features_3d_is sizes x y z cc nx ny nz nc integral).getD ii 0))
                rz)) ry) rx) r0) a2 b2 d2 j2
        = if a2 < nx ∧ b2 < ny ∧ d2 < nz ∧ cc * 2 * sizes.length ≤ j2 ∧
            j2 < cc * 2 * sizes.length + 2 * sizes.length
          then (if j2 < cc * 2 * sizes.length + sizes.length
            then (average_features_3d_is sizes a2 b2 d2 cc nx ny nz nc integral).getD
              (j2 - cc * 2 * sizes.length) 0
            else (average_features_3d_is sizes a2 b2 d2 cc nx ny nz nc integral2).getD
              (j2 - (cc * 2 * sizes.length + sizes.length)) 0
              - (average_features_3d_is sizes a2 b2 d2 cc nx ny nz nc integral).getD
                (j2 - (cc * 2 * sizes.length + sizes.length)) 0
                * (average_features_3d_is sizes a2 b2 d2 cc nx ny nz nc integral).getD
                  (j2 - (cc * 2 * sizes.length + sizes.length)) 0)
          else r0 a2 b2 d2 j2 := by
    intro cc r0 a2 b2 d2 j2
    have h1 := foldl_keyed4 _
      (fun t a3 b3 d3 j3 => a3 = t ∧ b3 < ny ∧ d3 < nz ∧
        cc * 2 * sizes.length ≤ j3 ∧ j3 < cc * 2 * sizes.length + 2 * sizes.length)
      (fun t a3 b3 d3 j3 => if j3 < cc * 2 * sizes.length + sizes.length
        then (average_features_3d_is sizes t b3 d3 cc nx ny nz nc integral).getD
          (j3 - cc * 2 * sizes.length) 0
        else (average_features_3d_is sizes t b3 d3 cc nx ny nz nc integral2).getD
          (j3 - (cc * 2 * sizes.length + sizes.length)) 0
          - (average_features_3d_is sizes t b3 d3 cc nx ny nz nc integral).getD
            (j3 - (cc * 2 * sizes.length + sizes.length)) 0
            * (average_features_3d_is sizes t b3 d3 cc nx ny nz nc integral).getD
              (j3 - (cc * 2 * sizes.length + sizes.length)) 0)
      (fun a3 _ _ _ => a3)
      (fun r1 t a3 b3 d3 j3 => hY cc t r1 a3 b3 d3 j3)
      (fun t a3 b3 d3 j3 h => h.1.symm)
      nx r0 a2 b2 d2 j2
    refine h1.trans ?_
    by_cases h : a2 < nx ∧ b2 < ny ∧ d2 < nz ∧ cc * 2 * sizes.length ≤ j2 ∧
        j2 < cc * 2 * sizes.length + 2 * sizes.length
    · rw [if_pos (show a2 < nx ∧ a2 = a2 ∧ b2 < ny ∧ d2 < nz ∧
          cc * 2 * sizes.length ≤ j2 ∧
          j2 < cc * 2 * sizes.length + 2 * sizes.length from
          ⟨h.1, rfl, h.2⟩), if_pos h]
    · rw [if_neg (show ¬(a2 < nx ∧ a2 = a2 ∧ b2 < ny ∧ d2 < nz ∧
          cc * 2 * sizes.length ≤ j2 ∧
          j2 < cc * 2 * sizes.length + 2 * sizes.length) from
          fun hcon => h ⟨hcon.1, hcon.2.2⟩), if_neg h]
  have hC := foldl_keyed4 _
    (fun t a3 b3 d3 j3 => a3 < nx ∧ b3 < ny ∧ d3 < nz ∧
      t * 2 * sizes.length ≤ j3 ∧ j3 < t * 2 * sizes.length + 2 * sizes.length)
    (fun t a3 b3 d3 j3 => if j3 < t * 2 * sizes.length + sizes.length
      then (average_features_3d_is sizes a3 b3 d3 t nx ny nz nc integral).getD
        (j3 - t * 2 * sizes.length) 0
      else (average_features_3d_is sizes a3 b3 d3 t nx ny nz nc integral2).getD
        (j3 - (t * 2 * sizes.length + sizes.length)) 0
        - (average_features_3d_is sizes a3 b3 d3 t nx ny nz nc integral).getD
          (j3 - (t * 2 * sizes.length + sizes.length)) 0
          * (average_features_3d_is sizes a3 b3 d3 t nx ny nz nc integral).getD
            (j3 - (t * 2 * sizes.length + sizes.length)) 0)
    (fun _ _ _ j3 => j3 / (2 * sizes.length))
    (fun r1 t a3 b3 d3 j3 => hX t r1 a3 b3 d3 j3)
    (fun t a3 b3 d3 j3 h => show t = j3 / (2 * sizes.length) from
      (Nat.div_eq_of_lt_le
        (by rw [← Nat.mul_assoc]; exact h.2.2.2.1)
        (by rw [Nat.succ_mul, ← Nat.mul_assoc]; exact h.2.2.2.2)).symm)
    nc res0 a b d j
  refine Eq.trans
    (show varLoop3 sizes nx ny nz nc integral integral2 res0 a b d j = _ from hC) ?_
  beta_reduce
  by_cases houter : a < nx ∧ b < ny ∧ d < nz ∧ j < nc * (2 * sizes.length)
  · rcases houter with ⟨hx2, hy2, hz2, hj⟩
    have h2len : 0 < 2 * sizes.length := by
      rcases Nat.eq_zero_or_pos (2 * sizes.length) with h0 | h0
      · rw [h0, Nat.mul_zero] at hj
        omega
      · exact h0
    have hq : j / (2 * sizes.length) < nc := (Nat.div_lt_iff_lt_mul h2len).mpr hj
    have hdm := Nat.div_add_mod j (2 * sizes.length)
    have hml := Nat.mod_lt j h2len
    have hcm : 2 * sizes.length * (j / (2 * sizes.length))
        = j / (2 * sizes.length) * 2 * sizes.length := by ring
    rw [if_pos (show j / (2 * sizes.length) < nc ∧ a < nx ∧ b < ny ∧ d < nz ∧
        j / (2 * sizes.length) * 2 * sizes.length ≤ j ∧
        j < j / (2 * sizes.length) * 2 * sizes.length + 2 * sizes.length from
        ⟨hq, hx2, hy2, hz2, by omega, by omega⟩),
      if_pos (show a < nx ∧ b < ny ∧ d < nz ∧ j < nc * (2 * sizes.length) from
        ⟨hx2, hy2, hz2, hj⟩)]
    by_cases hlow : j % (2 * sizes.length) < sizes.length
    · rw [if_pos (show j < j / (2 * sizes.length) * 2 * sizes.length +
          sizes.length by omega), if_pos hlow,
        show j - j / (2 * sizes.length) * 2 * sizes.length
          = j % (2 * sizes.length) by omega]
    · rw [if_neg (show ¬j < j / (2 * sizes.length) * 2 * sizes.length +
          sizes.length by omega), if_neg hlow,
        show j - (j / (2 * sizes.length) * 2 * sizes.length + sizes.length)
          = j % (2 * sizes.length) - sizes.length by omega]
  · rw [if_neg houter, if_neg (show ¬(j / (2 * sizes.length) < nc ∧ a < nx ∧
        b < ny ∧ d < nz ∧ j / (2 * sizes.length) * 2 * sizes.length ≤ j ∧
        j < j / (2 * sizes.length) * 2 * sizes.length + 2 * sizes.length) from by
      rintro ⟨hq, hx2, hy2, hz2, hlo, hhi⟩
      have h2len : 0 < 2 * sizes.length := by omega
      exact houter ⟨hx2, hy2, hz2, (Nat.div_lt_iff_lt_mul h2len).mp hq⟩)]

/-! ### Slot and frame lemmas for the drivers -/

lemma mul_len_div_mod (c ii len : ℕ) (hii : ii < len) :
    (c * len + ii) / len = c ∧ (c * len + ii) % len = ii := by
  constructor
  · rw [Nat.add_comm, Nat.mul_comm, Nat.add_mul_div_left ii c (by omega)]
    simp [Nat.div_eq_of_lt hii]
  · rw [Nat.add_comm, Nat.mul_comm, Nat.add_mul_mod_self_left]
    exact Nat.mod_eq_of_lt hii

lemma mul_two_len_div_mod (c off len : ℕ) (hoff : off < 2 * len) :
    (c * 2 * len + off) / (2 * len) = c ∧ (c * 2 * len + off) % (2 * len) = off := by
  have e : c * 2 * len + off = off + 2 * len * c := by ring
  constructor
  · rw [e, Nat.add_mul_div_left off c (by omega), Nat.div_eq_of_lt hoff]
    omega
  · rw [e, Nat.add_mul_mod_self_left]
    exact Nat.mod_eq_of_lt hoff

lemma slot_lt_total (c off len nc : ℕ) (hoff : off < 2 * len) (hc : c < nc) :
    c * 2 * len + off < nc * (2 * len) := by
  have h1 : (c + 1) * (2 * len) ≤ nc * (2 * len) :=
    Nat.mul_le_mul_right (2 * len) (by omega)
  have h2 : (c + 1) * (2 * len) = c * 2 * len + 2 * len := by ring
  omega

lemma avLoop2_slot (sizes : List ℕ) (nx ny nc : ℕ) (integral : ℕ → ℕ → ℕ → ℚ)
    (res0 : ℕ → ℕ → ℕ → ℚ) (x y c ii : ℕ)
    (hx : x < nx) (hy : y < ny) (hc : c < nc) (hii : ii < sizes.length) :
    avLoop2 sizes nx ny nc integral res0 x y (c * sizes.length + ii)
      = (average_features sizes x y c nx ny nc integral).getD ii 0 := by
  rw [avLoop2_eval]
  obtain ⟨hdiv, hmod⟩ := mul_len_div_mod c ii sizes.length hii
  rw [if_pos ⟨hx, hy, by
    have h1 : (c + 1) * sizes.length ≤ nc * sizes.length :=
      Nat.mul_le_mul_right sizes.length (by omega)
    have h2 : (c + 1) * sizes.length = c * sizes.length + sizes.length := by ring
    omega⟩]
  rw [hdiv, hmod]

lemma avLoop2_untouched (sizes : List ℕ) (nx ny nc : ℕ)
    (integral : ℕ → ℕ → ℕ → ℚ) (res0 : ℕ → ℕ → ℕ → ℚ) (a b j : ℕ)
    (h : nc * sizes.length ≤ j ∨ nx ≤ a ∨ ny ≤ b) :
    avLoop2 sizes nx ny nc integral res0 a b j = res0 a b j := by
  rw [avLoop2_eval]
  apply if_neg
  rintro ⟨h1, h2, h3⟩
  omega

lemma varLoop2_mean_slot (sizes : List ℕ) (nx ny nc : ℕ)
    (integral integral2 : ℕ → ℕ → ℕ → ℚ) (res0 : ℕ → ℕ → ℕ → ℚ) (x y c ii : ℕ)
    (hx : x < nx) (hy : y < ny) (hc : c < nc) (hii : ii < sizes.length) :
    varLoop2 sizes nx ny nc integral integral2 res0 x y (c * 2 * sizes.length + ii)
      = (average_features sizes x y c nx ny nc integral).getD ii 0 := by
  rw [varLoop2_eval]
  obtain ⟨hdiv, hmod⟩ := mul_two_len_div_mod c ii sizes.length (by omega)
  rw [if_pos ⟨hx, hy, slot_lt_total c ii sizes.length nc (by omega) hc⟩,
    hdiv, hmod, if_pos hii]

lemma varLoop2_var_slot (sizes : List ℕ) (nx ny nc : ℕ)
    (integral integral2 : ℕ → ℕ → ℕ → ℚ) (res0 : ℕ → ℕ → ℕ → ℚ) (x y c ii : ℕ)
    (hx : x < nx) (hy : y < ny) (hc : c < nc) (hii : ii < sizes.length) :
    varLoop2 sizes nx ny nc integral integral2 res0 x y
        (c * 2 * sizes.length + sizes.length + ii)
      = (average_features sizes x y c nx ny nc integral2).getD ii 0
        - (average_features sizes x y c nx ny nc integral).getD ii 0
          * (average_features sizes x y c nx ny nc integral).getD ii 0 := by
  rw [varLoop2_eval]
  have e : c * 2 * sizes.length + sizes.length + ii
      = c * 2 * sizes.length + (sizes.length + ii) := by omega
  obtain ⟨hdiv, hmod⟩ := mul_two_len_div_mod c (sizes.length + ii) sizes.length
    (by omega)
  rw [e, if_pos ⟨hx, hy,
    slot_lt_total c (sizes.length + ii) sizes.length nc (by omega) hc⟩,
    hdiv, hmod, if_neg (by omega), Nat.add_sub_cancel_left]

lemma varLoop2_untouched (sizes : List ℕ) (nx ny nc : ℕ)
    (integral integral2 : ℕ → ℕ → ℕ → ℚ) (res0 : ℕ → ℕ → ℕ → ℚ) (a b j : ℕ)
    (h : nc * (2 * sizes.length) ≤ j ∨ nx ≤ a ∨ ny ≤ b) :
    varLoop2 sizes nx ny nc integral integral2 res0 a b j = res0 a b j := by
  rw [varLoop2_eval]
  apply if_neg
  rintro ⟨h1, h2, h3⟩
  omega

lemma varLoop3_mean_slot (sizes : List ℕ) (nx ny nz nc : ℕ)
    (integral integral2 : ℕ → ℕ → ℕ → ℕ → ℚ) (res0 : ℕ → ℕ → ℕ → ℕ → ℚ)
    (x y z c ii : ℕ) (hx : x < nx) (hy : y < ny) (hz : z < nz) (hc : c < nc)
    (hii : ii < sizes.length) :
    varLoop3 sizes nx ny nz nc integral integral2 res0 x y z
        (c * 2 * sizes.length + ii)
      = (average_features_3d_is sizes x y z c nx ny nz nc integral).getD ii 0 := by
  rw [varLoop3_eval]
  obtain ⟨hdiv, hmod⟩ := mul_two_len_div_mod c ii sizes.length (by omega)
  rw [if_pos ⟨hx, hy, hz, slot_lt_total c ii sizes.length nc (by omega) hc⟩,
    hdiv, hmod, if_pos hii]

lemma varLoop3_var_slot (sizes : List ℕ) (nx ny nz nc : ℕ)
    (integral integral2 : ℕ → ℕ → ℕ → ℕ → ℚ) (res0 : ℕ → ℕ → ℕ → ℕ → ℚ)
    (x y z c ii : ℕ) (hx : x < nx) (hy : y < ny) (hz : z < nz) (hc : c < nc)
    (hii : ii < sizes.length) :
    varLoop3 sizes nx ny nz nc integral integral2 res0 x y z
        (c * 2 * sizes.length + sizes.length + ii)
      = (average_features_3d_is sizes x y z c nx ny nz nc integral2).getD ii 0
        - (average_features_3d_is sizes x y z c nx ny nz nc integral).getD ii 0
          * (average_features_3d_is sizes x y z c nx ny nz nc integral).getD ii 0 := by
  rw [varLoop3_eval]
  have e : c * 2 * sizes.length + sizes.length + ii
      = c * 2 * sizes.length + (sizes.length + ii) := by omega
  obtain ⟨hdiv, hmod⟩ := mul_two_len_div_mod c (sizes.length + ii) sizes.length
    (by omega)
  rw [e, if_pos ⟨hx, hy, hz,
    slot_lt_total c (sizes.length + ii) sizes.length nc (by omega) hc⟩,
    hdiv, hmod, if_neg (by omega), Nat.add_sub_cancel_left]

lemma varLoop3_untouched (sizes : List ℕ) (nx ny nz nc : ℕ)
    (integral integral2 : ℕ → ℕ → ℕ → ℕ → ℚ) (res0 : ℕ → ℕ → ℕ → ℕ → ℚ)
    (a b d j : ℕ)
    (h : nc * (2 * sizes.length) ≤ j ∨ nx ≤ a ∨ ny ≤ b ∨ nz ≤ d) :
    varLoop3 sizes nx ny nz nc integral integral2 res0 a b d j = res0 a b d j := by
  rw [varLoop3_eval]
  apply if_neg
  rintro ⟨h1, h2, h3, h4⟩
  omega

/-! ### Constant fields and divisor positivity -/

lemma bruteBox2_const (q : ℚ) (x y c r : ℕ) (hx : r ≤ x) (hy : r ≤ y) :
    bruteBox2 (fun _ _ _ => q) x y c r = (((2 * r + 1) * (2 * r + 1) : ℕ) : ℚ) * q := by
  unfold bruteBox2
  simp only [Finset.sum_const, Nat.card_Icc, nsmul_eq_mul]
  rw [show x + r + 1 - (x - r) = 2 * r + 1 by omega,
    show y + r + 1 - (y - r) = 2 * r + 1 by omega]
  push_cast
  ring

lemma bruteBox3_const (q : ℚ) (x y z c r : ℕ) (hx : r ≤ x) (hy : r ≤ y)
    (hz : r ≤ z) :
    bruteBox3 (fun _ _ _ _ => q) x y z c r
      = (((2 * r + 1) * (2 * r + 1) * (2 * r + 1) : ℕ) : ℚ) * q := by
  unfold bruteBox3
  simp only [Finset.sum_const, Nat.card_Icc, nsmul_eq_mul]
  rw [show x + r + 1 - (x - r) = 2 * r + 1 by omega,
    show y + r + 1 - (y - r) = 2 * r + 1 by omega,
    show z + r + 1 - (z - r) = 2 * r + 1 by omega]
  push_cast
  ring

lemma afStep2_const (radii : List ℕ) (x y c nx ny nc : ℕ) (q avPrev : ℚ) (ir : ℕ)
    (hb : borderOut2 nx ny x y (radii.getD ir 0) = false)
    (hprev : 0 < ir → avPrev = q ∧ radii.getD (ir - 1) 0 < radii.getD ir 0) :
    afStep2 radii x y c nx ny nc (prefixSum2 (fun _ _ _ => q)) ir avPrev = q := by
  obtain ⟨hxr, hyr, hxu, hyu⟩ := (borderOut2_eq_false nx ny x y _).mp hb
  simp only [afStep2, afCount2]
  rw [hb]
  simp only [Bool.false_eq_true, if_false]
  rw [boxSum2_prefixSum _ _ _ _ _ hxr hyr, bruteBox2_const _ _ _ _ _ hxr hyr]
  by_cases h0 : 0 < ir
  · obtain ⟨hq, hlt⟩ := hprev h0
    subst hq
    rw [if_pos h0, if_pos h0]
    have hne : (((2 * (radii.getD ir 0 : ℤ) + 1) * (2 * (radii.getD ir 0 : ℤ) + 1)
        - (2 * (radii.getD (ir - 1) 0 : ℤ) + 1) * (2 * (radii.getD (ir - 1) 0 : ℤ) + 1) : ℤ) : ℚ) ≠ 0 := by
      have hcast : ((radii.getD (ir - 1) 0 : ℕ) : ℤ) < ((radii.getD ir 0 : ℕ) : ℤ) := by
        exact_mod_cast hlt
      have hnn : (0 : ℤ) ≤ ((radii.getD (ir - 1) 0 : ℕ) : ℤ) := Int.natCast_nonneg _
      have hpos : (0 : ℤ) < (2 * (radii.getD ir 0 : ℤ) + 1) * (2 * (radii.getD ir 0 : ℤ) + 1)
          - (2 * (radii.getD (ir - 1) 0 : ℤ) + 1) * (2 * (radii.getD (ir - 1) 0 : ℤ) + 1) := by
        nlinarith
      exact_mod_cast hpos.ne'
    rw [div_eq_iff hne]
    push_cast
    ring
  · rw [if_neg h0, if_neg h0]
    have hne : (((2 * (radii.getD ir 0 : ℤ) + 1) * (2 * (radii.getD ir 0 : ℤ) + 1) : ℤ) : ℚ) ≠ 0 := by
      have hnn : (0 : ℤ) ≤ ((radii.getD ir 0 : ℕ) : ℤ) := Int.natCast_nonneg _
      have hpos : (0 : ℤ) < (2 * (radii.getD ir 0 : ℤ) + 1) * (2 * (radii.getD ir 0 : ℤ) + 1) := by
        nlinarith
      exact_mod_cast hpos.ne'
    rw [div_eq_iff hne]
    push_cast
    ring

lemma afStep3_const (radii : List ℕ) (x y z c nx ny nz nc : ℕ) (q avPrev : ℚ)
    (ir : ℕ) (hb : borderOut3 nx ny nz x y z (radii.getD ir 0) = false)
    (hprev : 0 < ir → avPrev = q ∧ radii.getD (ir - 1) 0 < radii.getD ir 0) :
    afStep3 radii x y z c nx ny nz nc (prefixSum3 (fun _ _ _ _ => q)) ir avPrev
      = q := by
  obtain ⟨hxr, hyr, hzr, hxu, hyu, hzu⟩ := (borderOut3_eq_false nx ny nz x y z _).mp hb
  simp only [afStep3, afCount3]
  rw [hb]
  simp only [Bool.false_eq_true, if_false]
  rw [boxSum3_prefixSum _ _ _ _ _ _ hxr hyr hzr,
    bruteBox3_const _ _ _ _ _ _ hxr hyr hzr]
  by_cases h0 : 0 < ir
  · obtain ⟨hq, hlt⟩ := hprev h0
    subst hq
    rw [if_pos h0, if_pos h0]
    have hne : (((2 * (radii.getD ir 0 : ℤ) + 1) * (2 * (radii.getD ir 0 : ℤ) + 1)
          * (2 * (radii.getD ir 0 : ℤ) + 1)
        - (2 * (radii.getD (ir - 1) 0 : ℤ) + 1) * (2 * (radii.getD (ir - 1) 0 : ℤ) + 1)
          * (2 * (radii.getD (ir - 1) 0 : ℤ) + 1) : ℤ) : ℚ) ≠ 0 := by
      have hcast : ((radii.getD (ir - 1) 0 : ℕ) : ℤ) < ((radii.getD ir 0 : ℕ) : ℤ) := by
        exact_mod_cast hlt
      have hnn : (0 : ℤ) ≤ ((radii.getD (ir - 1) 0 : ℕ) : ℤ) := Int.natCast_nonneg _
      have hpos : (0 : ℤ) < (2 * (radii.getD ir 0 : ℤ) + 1) * (2 * (radii.getD ir 0 : ℤ) + 1)
          * (2 * (radii.getD ir 0 : ℤ) + 1)
          - (2 * (radii.getD (ir - 1) 0 : ℤ) + 1) * (2 * (radii.getD (ir - 1) 0 : ℤ) + 1)
            * (2 * (radii.getD (ir - 1) 0 : ℤ) + 1) := by
        have hd1 : (0 : ℤ) < (2 * (radii.getD ir 0 : ℤ) + 1)
            - (2 * (radii.getD (ir - 1) 0 : ℤ) + 1) := by omega
        have hd2 : (0 : ℤ) < (2 * (radii.getD ir 0 : ℤ) + 1) * (2 * (radii.getD ir 0 : ℤ) + 1)
            + (2 * (radii.getD (ir - 1) 0 : ℤ) + 1) * (2 * (radii.getD ir 0 : ℤ) + 1)
            + (2 * (radii.getD (ir - 1) 0 : ℤ) + 1) * (2 * (radii.getD (ir - 1) 0 : ℤ) + 1) := by
          nlinarith
        nlinarith [mul_pos hd1 hd2]
      exact_mod_cast hpos.ne'
    rw [div_eq_iff hne]
    push_cast
    ring
  · rw [if_neg h0, if_neg h0]
    have hne : (((2 * (radii.getD ir 0 : ℤ) + 1) * (2 * (radii.getD ir 0 : ℤ) + 1)
        * (2 * (radii.getD ir 0 : ℤ) + 1) : ℤ) : ℚ) ≠ 0 := by
      have hnn : (0 : ℤ) ≤ ((radii.getD ir 0 : ℕ) : ℤ) := Int.natCast_nonneg _
      have hpos : (0 : ℤ) < (2 * (radii.getD ir 0 : ℤ) + 1) * (2 * (radii.getD ir 0 : ℤ) + 1)
          * (2 * (radii.getD ir 0 : ℤ) + 1) := by
        nlinarith
      exact_mod_cast hpos.ne'
    rw [div_eq_iff hne]
    push_cast
    ring

/-- On a constant field with all boxes in-border and strictly increasing
radii, every entry of `average_features` equals the constant. -/
lemma af_const2 (radii : List ℕ) (x y c nx ny nc : ℕ) (q : ℚ)
    (hmono : ∀ i, i + 1 < radii.length → radii.getD i 0 < radii.getD (i + 1) 0)
    (hin : ∀ i, i < radii.length → borderOut2 nx ny x y (radii.getD i 0) = false) :
    ∀ ir, ir < radii.length →
      (average_features radii x y c nx ny nc
        (prefixSum2 (fun _ _ _ => q))).getD ir 0 = q := by
  intro ir
  induction ir with
  | zero =>
      intro h0
      rw [average_features_getD _ _ _ _ _ _ _ _ 0 h0]
      exact afStep2_const _ _ _ _ _ _ _ _ _ _ (hin 0 h0) (by omega)
  | succ m ih =>
      intro h1
      rw [average_features_getD _ _ _ _ _ _ _ _ (m + 1) h1]
      refine afStep2_const _ _ _ _ _ _ _ _ _ _ (hin (m + 1) h1) ?_
      intro _
      constructor
      · rw [Nat.add_sub_cancel]
        exact ih (by omega)
      · rw [Nat.add_sub_cancel]
        exact hmono m h1

/-- 3D version of `af_const2`. -/
lemma af_const3 (radii : List ℕ) (x y z c nx ny nz nc : ℕ) (q : ℚ)
    (hmono : ∀ i, i + 1 < radii.length → radii.getD i 0 < radii.getD (i + 1) 0)
    (hin : ∀ i, i < radii.length →
      borderOut3 nx ny nz x y z (radii.getD i 0) = false) :
    ∀ ir, ir < radii.length →
      (average_features_3d_is radii x y z c nx ny nz nc
        (prefixSum3 (fun _ _ _ _ => q))).getD ir 0 = q := by
  intro ir
  induction ir with
  | zero =>
      intro h0
      rw [average_features_3d_getD _ _ _ _ _ _ _ _ _ _ 0 h0]
      exact afStep3_const _ _ _ _ _ _ _ _ _ _ _ _ (hin 0 h0) (by omega)
  | succ m ih =>
      intro h1
      rw [average_features_3d_getD _ _ _ _ _ _ _ _ _ _ (m + 1) h1]
      refine afStep3_const _ _ _ _ _ _ _ _ _ _ _ _ (hin (m + 1) h1) ?_
      intro _
      constructor
      · rw [Nat.add_sub_cancel]
        exact ih (by omega)
      · rw [Nat.add_sub_cancel]
        exact hmono m h1

/-- The divisor of `average_features` is positive for strictly increasing
radii. -/
lemma afCount2_pos (radii : List ℕ)
    (hmono : ∀ i, i + 1 < radii.length → radii.getD i 0 < radii.getD (i + 1) 0)
    (ir : ℕ) (h : ir < radii.length) : 0 < afCount2 radii ir := by
  simp only [afCount2]
  by_cases h0 : 0 < ir
  · rw [if_pos h0]
    have hlt : radii.getD (ir - 1) 0 < radii.getD ir 0 := by
      have := hmono (ir - 1) (by omega)
      rwa [Nat.sub_add_cancel (by omega)] at this
    have hcast : ((radii.getD (ir - 1) 0 : ℕ) : ℤ) < ((radii.getD ir 0 : ℕ) : ℤ) := by
      exact_mod_cast hlt
    have hnn : (0 : ℤ) ≤ ((radii.getD (ir - 1) 0 : ℕ) : ℤ) := Int.natCast_nonneg _
    nlinarith
  · rw [if_neg h0]
    have hnn : (0 : ℤ) ≤ ((radii.getD ir 0 : ℕ) : ℤ) := Int.natCast_nonneg _
    nlinarith

/-- The divisor of `average_features_3d_is` is positive for strictly
increasing radii. -/
lemma afCount3_pos (radii : List ℕ)
    (hmono : ∀ i, i + 1 < radii.length → radii.getD i 0 < radii.getD (i + 1) 0)
    (ir : ℕ) (h : ir < radii.length) : 0 < afCount3 radii ir := by
  simp only [afCount3]
  by_cases h0 : 0 < ir
  · rw [if_pos h0]
    have hlt : radii.getD (ir - 1) 0 < radii.getD ir 0 := by
      have := hmono (ir - 1) (by omega)
      rwa [Nat.sub_add_cancel (by omega)] at this
    have hcast : ((radii.getD (ir - 1) 0 : ℕ) : ℤ) < ((radii.getD ir 0 : ℕ) : ℤ) := by
      exact_mod_cast hlt
    have hnn : (0 : ℤ) ≤ ((radii.getD (ir - 1) 0 : ℕ) : ℤ) := Int.natCast_nonneg _
    have h1 : (0 : ℤ) < (2 * (radii.getD ir 0 : ℤ) + 1)
        - (2 * (radii.getD (ir - 1) 0 : ℤ) + 1) := by omega
    have h2 : (0 : ℤ) < (2 * (radii.getD ir 0 : ℤ) + 1) * (2 * (radii.getD ir 0 : ℤ) + 1)
        + (2 * (radii.getD (ir - 1) 0 : ℤ) + 1) * (2 * (radii.getD ir 0 : ℤ) + 1)
        + (2 * (radii.getD (ir - 1) 0 : ℤ) + 1) * (2 * (radii.getD (ir - 1) 0 : ℤ) + 1) := by
      nlinarith
    nlinarith [mul_pos h1 h2]
  · rw [if_neg h0]
    have hnn : (0 : ℤ) ≤ ((radii.getD ir 0 : ℕ) : ℤ) := Int.natCast_nonneg _
    nlinarith

/-! ### Claim theorems -/

/-- C2: assuming the integral array passed to `average_features` /
`average_features_3d_is` is the exact prefix sum of a field `F`, the
inclusion-exclusion expression computed from the 4 (2D) or 8 (3D) corner
lookups — each corner replaced by `0` exactly when one of its coordinates
equals the radius — equals the brute-force sum of `F` over the closed box
`[x-r,x+r] × [y-r,y+r] (× [z-r,z+r])` for that channel, for every center
whose box lies fully inside the array bounds. -/
theorem C2_boxsum_correct (F2 : ℕ → ℕ → ℕ → ℚ) (F3 : ℕ → ℕ → ℕ → ℕ → ℚ)
    (nx ny nz x y z c r : ℕ) :
    (borderOut2 nx ny x y r = false →
      boxSum2 (prefixSum2 F2) x y c r = bruteBox2 F2 x y c r) ∧
    (borderOut3 nx ny nz x y z r = false →
      boxSum3 (prefixSum3 F3) x y z c r = bruteBox3 F3 x y z c r) := by
  constructor
  · intro h
    obtain ⟨h1, h2, -, -⟩ := (borderOut2_eq_false nx ny x y r).mp h
    exact boxSum2_prefixSum F2 x y c r h1 h2
  · intro h
    obtain ⟨h1, h2, h3, -, -, -⟩ := (borderOut3_eq_false nx ny nz x y z r).mp h
    exact boxSum3_prefixSum F3 x y z c r h1 h2 h3

/-- Witness for C2 at concrete fields, centers and radii. -/
theorem C2_boxsum_correct_witness :
    borderOut2 3 3 1 1 1 = false ∧ borderOut3 2 2 2 1 1 1 0 = false ∧
    boxSum2 (prefixSum2 fieldSq) 1 1 0 1 = bruteBox2 fieldSq 1 1 0 1 ∧
    boxSum3 (prefixSum3 fieldLin3) 1 1 1 0 0 = bruteBox3 fieldLin3 1 1 1 0 0 :=
  ⟨by decide, by decide,
    (C2_boxsum_correct fieldSq fieldLin3 3 3 2 1 1 1 0 1).1 (by decide),
    (C2_boxsum_correct fieldSq fieldLin3 2 2 2 1 1 1 0 0).2 (by decide)⟩

/-- C7: for a strictly increasing radius list, every divisor `n` used by
`average_features` (`afCount2`, squares) and by `average_features_3d_is`
(`afCount3`, cubes) is strictly positive, so `averages[ir] = sum/n` never
divides by zero. -/
theorem C7_divisor_positive (radii : List ℕ)
    (hmono : ∀ i, i + 1 < radii.length → radii.getD i 0 < radii.getD (i + 1) 0) :
    ∀ ir, ir < radii.length → 0 < afCount2 radii ir ∧ 0 < afCount3 radii ir :=
  fun ir h => ⟨afCount2_pos radii hmono ir h, afCount3_pos radii hmono ir h⟩

/-- Witness for C7 on the radius list `[1, 3]`. -/
theorem C7_divisor_positive_witness :
    0 < afCount2 [1, 3] 1 ∧ 0 < afCount3 [1, 3] 1 :=
  C7_divisor_positive [1, 3]
    (by
      intro i hi
      have h2 : i + 1 < 2 := hi
      have h0 : i = 0 := by omega
      subst h0
      decide) 1 (by decide)

/-- C9: every driver call leaves the radius list and the predictions array
unchanged; the only state component the call replaces is the output array
`res` (the integral accumulators are fresh locals that do not outlive the
call). -/
theorem C9_drivers_frame (st : St2) (st3 : St3) :
    (avContext2Dmulti st).sizes = st.sizes
      ∧ (avContext2Dmulti st).predictions = st.predictions
      ∧ (varContext2Dmulti st).sizes = st.sizes
      ∧ (varContext2Dmulti st).predictions = st.predictions
      ∧ (varContext3Dmulti st3).sizes = st3.sizes
      ∧ (varContext3Dmulti st3).predictions = st3.predictions :=
  ⟨rfl, rfl, rfl, rfl, rfl, rfl⟩

/-- C10: with an empty radius list every driver terminates with the state
completely unchanged — in particular no cell of `res` is written — and the
`averages` vector is empty for every integral array, so no box corner of any
integral is ever read. -/
theorem C10_empty_radius_list (st : St2) (st3 : St3)
    (h : st.sizes = []) (h3 : st3.sizes = []) :
    avContext2Dmulti st = st ∧ varContext2Dmulti st = st
      ∧ varContext3Dmulti st3 = st3
      ∧ (∀ (x y c nx ny nc : ℕ) (integral : ℕ → ℕ → ℕ → ℚ),
          average_features [] x y c nx ny nc integral = [])
      ∧ (∀ (x y z c nx ny nz nc : ℕ) (integral : ℕ → ℕ → ℕ → ℕ → ℚ),
          average_features_3d_is [] x y z c nx ny nz nc integral = []) := by
  obtain ⟨s, p, r⟩ := st
  obtain ⟨s3, p3, r3⟩ := st3
  dsimp only at h h3
  subst h
  subst h3
  refine ⟨?_, ?_, ?_, fun _ _ _ _ _ _ _ => rfl, fun _ _ _ _ _ _ _ _ _ => rfl⟩
  · have h1 : avLoop2 [] p.nx p.ny p.nc (integralImage p) r = r := by
      funext a b j
      rw [avLoop2_eval]
      apply if_neg
      rintro ⟨-, -, hj⟩
      simp at hj
    exact congrArg (St2.mk [] p) h1
  · have h1 : varLoop2 [] p.nx p.ny p.nc (integralImage p) (integralImage2 p) r
        = r := by
      funext a b j
      rw [varLoop2_eval]
      apply if_neg
      rintro ⟨-, -, hj⟩
      simp at hj
    exact congrArg (St2.mk [] p) h1
  · have h1 : varLoop3 [] p3.nx p3.ny p3.nz p3.nc (integralVolume p3)
        (integralVolume2 p3) r3 = r3 := by
      funext a b d j
      rw [varLoop3_eval]
      apply if_neg
      rintro ⟨-, -, -, hj⟩
      simp at hj
    exact congrArg (St3.mk [] p3) h1

/-- Witness for C10 on concrete empty-radius states. -/
theorem C10_empty_radius_list_witness :
    avContext2Dmulti stEmpty2 = stEmpty2 ∧ varContext2Dmulti stEmpty2 = stEmpty2
      ∧ varContext3Dmulti stEmpty3 = stEmpty3 := by
  obtain ⟨h1, h2, h3, -, -⟩ := C10_empty_radius_list stEmpty2 stEmpty3 rfl rfl
  exact ⟨h1, h2, h3⟩

/-- C3 (counterexample): on a 3×3 all-ones single-channel array with the
single radius 5 (out of border everywhere) and `nclasses = 1`, the variance
feature written by `varContext2Dmulti` at the border location `(0,0)` is
`1/1 - (1/1)·(1/1) = 0`, not the placeholder `1/nclasses = 1` asserted by the
claim. -/
theorem C3_border_variance_counterexample :
    borderOut2 3 3 0 0 5 = true
      ∧ (varContext2Dmulti stBorder).res 0 0 1 = 0
      ∧ (varContext2Dmulti stBorder).res 0 0 1 ≠ 1 / ((1 : ℕ) : ℚ) := by
  have h := varLoop2_var_slot stBorder.sizes stBorder.predictions.nx
    stBorder.predictions.ny stBorder.predictions.nc
    (integralImage stBorder.predictions) (integralImage2 stBorder.predictions)
    stBorder.res 0 0 0 0 (by decide) (by decide) (by decide) (by decide)
  have e : 0 * 2 * stBorder.sizes.length + stBorder.sizes.length + 0 = 1 := rfl
  rw [e] at h
  have h1 := average_features_border stBorder.sizes 0 0 0 stBorder.predictions.nx
    stBorder.predictions.ny stBorder.predictions.nc
    (integralImage stBorder.predictions) 0 (by decide) (by decide)
  have h2 := average_features_border stBorder.sizes 0 0 0 stBorder.predictions.nx
    stBorder.predictions.ny stBorder.predictions.nc
    (integralImage2 stBorder.predictions) 0 (by decide) (by decide)
  have hval : (varContext2Dmulti stBorder).res 0 0 1 = 0 := by
    refine Eq.trans h ?_
    rw [h1, h2]
    norm_num [stBorder]
  refine ⟨by decide, hval, ?_⟩
  rw [hval]
  norm_num

/-- C3 (amended): for every location/radius whose box would exit the array
bounds, the mean features written by all three drivers equal exactly
`1/nclasses`; the corresponding variance features written by
`varContext2Dmulti` / `varContext3Dmulti` equal `1/nclasses - (1/nclasses)²`;
and no box sum is computed for such a radius — the value written is the same
for every integral array. -/
theorem C3_border_placeholder_amended :
    (∀ (st : St2) (x y c i : ℕ),
      x < st.predictions.nx → y < st.predictions.ny → c < st.predictions.nc →
      i < st.sizes.length →
      borderOut2 st.predictions.nx st.predictions.ny x y (st.sizes.getD i 0)
        = true →
      (avContext2Dmulti st).res x y (c * st.sizes.length + i)
          = 1 / (st.predictions.nc : ℚ)
        ∧ (varContext2Dmulti st).res x y (c * 2 * st.sizes.length + i)
          = 1 / (st.predictions.nc : ℚ)
        ∧ (varContext2Dmulti st).res x y
            (c * 2 * st.sizes.length + st.sizes.length + i)
          = 1 / (st.predictions.nc : ℚ)
            - 1 / (st.predictions.nc : ℚ) * (1 / (st.predictions.nc : ℚ))
        ∧ ∀ integral : ℕ → ℕ → ℕ → ℚ,
            (average_features st.sizes x y c st.predictions.nx
              st.predictions.ny st.predictions.nc integral).getD i 0
              = 1 / (st.predictions.nc : ℚ))
    ∧ (∀ (st : St3) (x y z c i : ℕ),
      x < st.predictions.nx → y < st.predictions.ny → z < st.predictions.nz →
      c < st.predictions.nc → i < st.sizes.length →
      borderOut3 st.predictions.nx st.predictions.ny st.predictions.nz x y z
        (st.sizes.getD i 0) = true →
      (varContext3Dmulti st).res x y z (c * 2 * st.sizes.length + i)
          = 1 / (st.predictions.nc : ℚ)
        ∧ (varContext3Dmulti st).res x y z
            (c * 2 * st.sizes.length + st.sizes.length + i)
          = 1 / (st.predictions.nc : ℚ)
            - 1 / (st.predictions.nc : ℚ) * (1 / (st.predictions.nc : ℚ))
        ∧ ∀ integral : ℕ → ℕ → ℕ → ℕ → ℚ,
            (average_features_3d_is st.sizes x y z c st.predictions.nx
              st.predictions.ny st.predictions.nz st.predictions.nc
              integral).getD i 0 = 1 / (st.predictions.nc : ℚ)) := by
  constructor
  · intro st x y c i hx hy hc hi hb
    have hmean := average_features_border st.sizes x y c st.predictions.nx
      st.predictions.ny st.predictions.nc (integralImage st.predictions) i hi hb
    have hmean2 := average_features_border st.sizes x y c st.predictions.nx
      st.predictions.ny st.predictions.nc (integralImage2 st.predictions) i hi hb
    refine ⟨?_, ?_, ?_,
      fun integral => average_features_border st.sizes x y c st.predictions.nx
        st.predictions.ny st.predictions.nc integral i hi hb⟩
    · exact (avLoop2_slot st.sizes st.predictions.nx st.predictions.ny
        st.predictions.nc (integralImage st.predictions) st.res x y c i
        hx hy hc hi).trans hmean
    · exact (varLoop2_mean_slot st.sizes st.predictions.nx st.predictions.ny
        st.predictions.nc (integralImage st.predictions)
        (integralImage2 st.predictions) st.res x y c i hx hy hc hi).trans hmean
    · refine (varLoop2_var_slot st.sizes st.predictions.nx st.predictions.ny
        st.predictions.nc (integralImage st.predictions)
        (integralImage2 st.predictions) st.res x y c i hx hy hc hi).trans ?_
      rw [hmean, hmean2]
  · intro st x y z c i hx hy hz hc hi hb
    have hmean := average_features_3d_border st.sizes x y z c st.predictions.nx
      st.predictions.ny st.predictions.nz st.predictions.nc
      (integralVolume st.predictions) i hi hb
    have hmean2 := average_features_3d_border st.sizes x y z c st.predictions.nx
      st.predictions.ny st.predictions.nz st.predictions.nc
      (integralVolume2 st.predictions) i hi hb
    refine ⟨?_, ?_,
      fun integral => average_features_3d_border st.sizes x y z c
        st.predictions.nx st.predictions.ny st.predictions.nz
        st.predictions.nc integral i hi hb⟩
    · exact (varLoop3_mean_slot st.sizes st.predictions.nx st.predictions.ny
        st.predictions.nz st.predictions.nc (integralVolume st.predictions)
        (integralVolume2 st.predictions) st.res x y z c i hx hy hz hc hi).trans
        hmean
    · refine (varLoop3_var_slot st.sizes st.predictions.nx st.predictions.ny
        st.predictions.nz st.predictions.nc (integralVolume st.predictions)
        (integralVolume2 st.predictions) st.res x y z c i hx hy hz hc hi).trans
        ?_
      rw [hmean, hmean2]

/-- Witness for the amended C3 on concrete border inputs. -/
theorem C3_border_placeholder_witness :
    (avContext2Dmulti stBorder).res 0 0 0 = 1 / ((1 : ℕ) : ℚ)
      ∧ (varContext2Dmulti stBorder).res 0 0 0 = 1 / ((1 : ℕ) : ℚ)
      ∧ (varContext2Dmulti stBorder).res 0 0 1
        = 1 / ((1 : ℕ) : ℚ) - 1 / ((1 : ℕ) : ℚ) * (1 / ((1 : ℕ) : ℚ))
      ∧ (varContext3Dmulti stBorder3).res 0 0 0 0 = 1 / ((1 : ℕ) : ℚ)
      ∧ (varContext3Dmulti stBorder3).res 0 0 0 1
        = 1 / ((1 : ℕ) : ℚ) - 1 / ((1 : ℕ) : ℚ) * (1 / ((1 : ℕ) : ℚ)) := by
  obtain ⟨h1, h2, h3, -⟩ := C3_border_placeholder_amended.1 stBorder 0 0 0 0
    (by decide) (by decide) (by decide) (by decide) (by decide)
  obtain ⟨g1, g2, -⟩ := C3_border_placeholder_amended.2 stBorder3 0 0 0 0 0
    (by decide) (by decide) (by decide) (by decide) (by decide) (by decide)
  exact ⟨h1, h2, h3, g1, g2⟩

/-- C5: when radius index `i-1` was out of border (so `averages[i-1]` holds
the placeholder `1/nclasses`) and radius index `i` is in border, the result
at `i` subtracts the placeholder times the previous full-box count as if it
were a true accumulated sum:
`(full_box_sum_i - (1/nclasses)·(2r_{i-1}+1)^D) / ((2r_i+1)^D - (2r_{i-1}+1)^D)`. -/
theorem C5_placeholder_reused_as_sum :
    (∀ (F : ℕ → ℕ → ℕ → ℚ) (radii : List ℕ) (x y c nx ny nc i : ℕ),
      1 ≤ i → i < radii.length →
      borderOut2 nx ny x y (radii.getD (i - 1) 0) = true →
      borderOut2 nx ny x y (radii.getD i 0) = false →
      (average_features radii x y c nx ny nc (prefixSum2 F)).getD i 0
        = (bruteBox2 F x y c (radii.getD i 0)
            - 1 / (nc : ℚ) * ((2 * radii.getD (i - 1) 0 + 1 : ℕ) : ℚ)
              * ((2 * radii.getD (i - 1) 0 + 1 : ℕ) : ℚ))
          / (((2 * (radii.getD i 0 : ℤ) + 1) * (2 * (radii.getD i 0 : ℤ) + 1)
              - (2 * (radii.getD (i - 1) 0 : ℤ) + 1)
                * (2 * (radii.getD (i - 1) 0 : ℤ) + 1) : ℤ) : ℚ))
    ∧ (∀ (F : ℕ → ℕ → ℕ → ℕ → ℚ) (radii : List ℕ) (x y z c nx ny nz nc i : ℕ),
      1 ≤ i → i < radii.length →
      borderOut3 nx ny nz x y z (radii.getD (i - 1) 0) = true →
      borderOut3 nx ny nz x y z (radii.getD i 0) = false →
      (average_features_3d_is radii x y z c nx ny nz nc (prefixSum3 F)).getD i 0
        = (bruteBox3 F x y z c (radii.getD i 0)
            - 1 / (nc : ℚ)
              * (((2 * radii.getD (i - 1) 0 + 1) * (2 * radii.getD (i - 1) 0 + 1)
                  * (2 * radii.getD (i - 1) 0 + 1) : ℕ) : ℚ))
          / (((2 * (radii.getD i 0 : ℤ) + 1) * (2 * (radii.getD i 0 : ℤ) + 1)
                * (2 * (radii.getD i 0 : ℤ) + 1)
              - (2 * (radii.getD (i - 1) 0 : ℤ) + 1)
                * (2 * (radii.getD (i - 1) 0 : ℤ) + 1)
                * (2 * (radii.getD (i - 1) 0 : ℤ) + 1) : ℤ) : ℚ)) := by
  constructor
  · intro F radii x y c nx ny nc i h1 h2 hbp hbc
    rw [average_features_getD radii x y c nx ny nc _ i h2,
      average_features_border radii x y c nx ny nc _ (i - 1) (by omega) hbp]
    obtain ⟨ha, hb2, -, -⟩ := (borderOut2_eq_false nx ny x y _).mp hbc
    simp only [afStep2, afCount2]
    rw [hbc]
    simp only [Bool.false_eq_true, if_false]
    rw [if_pos (show 0 < i by omega), if_pos (show 0 < i by omega),
      boxSum2_prefixSum F x y c _ ha hb2]
  · intro F radii x y z c nx ny nz nc i h1 h2 hbp hbc
    rw [average_features_3d_getD radii x y z c nx ny nz nc _ i h2,
      average_features_3d_border radii x y z c nx ny nz nc _ (i - 1)
        (by omega) hbp]
    obtain ⟨ha, hb2, hd2, -, -, -⟩ := (borderOut3_eq_false nx ny nz x y z _).mp hbc
    simp only [afStep3, afCount3]
    rw [hbc]
    simp only [Bool.false_eq_true, if_false]
    rw [if_pos (show 0 < i by omega), if_pos (show 0 < i by omega),
      boxSum3_prefixSum F x y z c _ ha hb2 hd2]

/-- Witness for C5: on a 3×3 all-ones field with radii `[5, 1]` at `(1,1)`,
radius 5 is out of border, radius 1 is in border, and the value written at
index 1 is `(9 - 121)/(9 - 121) = 1`. -/
theorem C5_placeholder_reused_witness :
    borderOut2 3 3 1 1 5 = true ∧ borderOut2 3 3 1 1 1 = false ∧
    (average_features [5, 1] 1 1 0 3 3 1
        (prefixSum2 (fun _ _ _ => 1))).getD 1 0 = 1 ∧
    borderOut3 3 3 3 1 1 1 5 = true ∧ borderOut3 3 3 3 1 1 1 1 = false ∧
    (average_features_3d_is [5, 1] 1 1 1 0 3 3 3 1
        (prefixSum3 (fun _ _ _ _ => 1))).getD 1 0 = 1 := by
  refine ⟨by decide, by decide, ?_, by decide, by decide, ?_⟩
  · refine (C5_placeholder_reused_as_sum.1 (fun _ _ _ => 1) [5, 1] 1 1 0 3 3 1 1
      (by omega) (by decide) (by decide) (by decide)).trans ?_
    norm_num [bruteBox2, show Finset.Icc 0 2 = ({0, 1, 2} : Finset ℕ) from rfl,
      Finset.sum_insert, Finset.mem_insert]
  · refine (C5_placeholder_reused_as_sum.2 (fun _ _ _ _ => 1) [5, 1] 1 1 1 0 3 3 3 1
      1 (by omega) (by decide) (by decide) (by decide)).trans ?_
    norm_num [bruteBox3, show Finset.Icc 0 2 = ({0, 1, 2} : Finset ℕ) from rfl,
      Finset.sum_insert, Finset.mem_insert]

/-- C6: on a constant field `F ≡ k`, at every location where no radius
triggers the border placeholder and for any strictly increasing radius list,
every mean feature written by the drivers equals `k` and every variance
feature written by `varContext2Dmulti` / `varContext3Dmulti` equals `0`. -/
theorem C6_constant_field :
    (∀ (st : St2) (q : ℚ) (x y c i : ℕ),
      st.predictions.data = (fun _ _ _ => q) →
      (∀ m, m + 1 < st.sizes.length → st.sizes.getD m 0 < st.sizes.getD (m + 1) 0) →
      (∀ m, m < st.sizes.length →
        borderOut2 st.predictions.nx st.predictions.ny x y (st.sizes.getD m 0)
          = false) →
      x < st.predictions.nx → y < st.predictions.ny → c < st.predictions.nc →
      i < st.sizes.length →
      (avContext2Dmulti st).res x y (c * st.sizes.length + i) = q
        ∧ (varContext2Dmulti st).res x y (c * 2 * st.sizes.length + i) = q
        ∧ (varContext2Dmulti st).res x y
            (c * 2 * st.sizes.length + st.sizes.length + i) = 0)
    ∧ (∀ (st : St3) (q : ℚ) (x y z c i : ℕ),
      st.predictions.data = (fun _ _ _ _ => q) →
      (∀ m, m + 1 < st.sizes.length → st.sizes.getD m 0 < st.sizes.getD (m + 1) 0) →
      (∀ m, m < st.sizes.length →
        borderOut3 st.predictions.nx st.predictions.ny st.predictions.nz x y z
          (st.sizes.getD m 0) = false) →
      x < st.predictions.nx → y < st.predictions.ny → z < st.predictions.nz →
      c < st.predictions.nc → i < st.sizes.length →
      (varContext3Dmulti st).res x y z (c * 2 * st.sizes.length + i) = q
        ∧ (varContext3Dmulti st).res x y z
            (c * 2 * st.sizes.length + st.sizes.length + i) = 0) := by
  constructor
  · intro st q x y c i hdata hmono hin hx hy hc hi
    have hint : integralImage st.predictions = prefixSum2 (fun _ _ _ => q) := by
      funext a b ch
      simp only [integralImage]
      rw [hdata]
    have hint2 : integralImage2 st.predictions
        = prefixSum2 (fun _ _ _ => q * q) := by
      funext a b ch
      simp only [integralImage2]
      rw [hdata]
    refine ⟨?_, ?_, ?_⟩
    · refine (avLoop2_slot st.sizes st.predictions.nx st.predictions.ny
        st.predictions.nc (integralImage st.predictions) st.res x y c i
        hx hy hc hi).trans ?_
      rw [hint]
      exact af_const2 st.sizes x y c st.predictions.nx st.predictions.ny
        st.predictions.nc q hmono hin i hi
    · refine (varLoop2_mean_slot st.sizes st.predictions.nx st.predictions.ny
        st.predictions.nc (integralImage st.predictions)
        (integralImage2 st.predictions) st.res x y c i hx hy hc hi).trans ?_
      rw [hint]
      exact af_const2 st.sizes x y c st.predictions.nx st.predictions.ny
        st.predictions.nc q hmono hin i hi
    · refine (varLoop2_var_slot st.sizes st.predictions.nx st.predictions.ny
        st.predictions.nc (integralImage st.predictions)
        (integralImage2 st.predictions) st.res x y c i hx hy hc hi).trans ?_
      rw [hint, hint2,
        af_const2 st.sizes x y c st.predictions.nx st.predictions.ny
          st.predictions.nc q hmono hin i hi,
        af_const2 st.sizes x y c st.predictions.nx st.predictions.ny
          st.predictions.nc (q * q) hmono hin i hi]
      ring
  · intro st q x y z c i hdata hmono hin hx hy hz hc hi
    have hint : integralVolume st.predictions = prefixSum3 (fun _ _ _ _ => q) := by
      funext a b d ch
      simp only [integralVolume]
      rw [hdata]
    have hint2 : integralVolume2 st.predictions
        = prefixSum3 (fun _ _ _ _ => q * q) := by
      funext a b d ch
      simp only [integralVolume2]
      rw [hdata]
    refine ⟨?_, ?_⟩
    · refine (varLoop3_mean_slot st.sizes st.predictions.nx st.predictions.ny
        st.predictions.nz st.predictions.nc (integralVolume st.predictions)
        (integralVolume2 st.predictions) st.res x y z c i
        hx hy hz hc hi).trans ?_
      rw [hint]
      exact af_const3 st.sizes x y z c st.predictions.nx st.predictions.ny
        st.predictions.nz st.predictions.nc q hmono hin i hi
    · refine (varLoop3_var_slot st.sizes st.predictions.nx st.predictions.ny
        st.predictions.nz st.predictions.nc (integralVolume st.predictions)
        (integralVolume2 st.predictions) st.res x y z c i
        hx hy hz hc hi).trans ?_
      rw [hint, hint2,
        af_const3 st.sizes x y z c st.predictions.nx st.predictions.ny
          st.predictions.nz st.predictions.nc q hmono hin i hi,
        af_const3 st.sizes x y z c st.predictions.nx st.predictions.ny
          st.predictions.nz st.predictions.nc (q * q) hmono hin i hi]
      ring

/-- Witness for C6 on the constant-7 states with radius list `[1]` at an
interior location. -/
theorem C6_constant_field_witness :
    (avContext2Dmulti stConst2).res 1 1 0 = 7
      ∧ (varContext2Dmulti stConst2).res 1 1 0 = 7
      ∧ (varContext2Dmulti stConst2).res 1 1 1 = 0
      ∧ (varContext3Dmulti stConst3).res 1 1 1 0 = 7
      ∧ (varContext3Dmulti stConst3).res 1 1 1 1 = 0 := by
  have hmono2 : ∀ m, m + 1 < stConst2.sizes.length →
      stConst2.sizes.getD m 0 < stConst2.sizes.getD (m + 1) 0 := by
    intro m hm
    have h2 : m + 1 < 1 := hm
    omega
  have hin2 : ∀ m, m < stConst2.sizes.length →
      borderOut2 stConst2.predictions.nx stConst2.predictions.ny 1 1
        (stConst2.sizes.getD m 0) = false := by
    intro m hm
    have h2 : m < 1 := hm
    have h0 : m = 0 := by omega
    subst h0
    decide
  have hmono3 : ∀ m, m + 1 < stConst3.sizes.length →
      stConst3.sizes.getD m 0 < stConst3.sizes.getD (m + 1) 0 := by
    intro m hm
    have h2 : m + 1 < 1 := hm
    omega
  have hin3 : ∀ m, m < stConst3.sizes.length →
      borderOut3 stConst3.predictions.nx stConst3.predictions.ny
        stConst3.predictions.nz 1 1 1 (stConst3.sizes.getD m 0) = false := by
    intro m hm
    have h2 : m < 1 := hm
    have h0 : m = 0 := by omega
    subst h0
    decide
  obtain ⟨h1, h2, h3⟩ := C6_constant_field.1 stConst2 7 1 1 0 0 rfl hmono2 hin2
    (by decide) (by decide) (by decide) (by decide)
  obtain ⟨g1, g2⟩ := C6_constant_field.2 stConst3 7 1 1 1 0 0 rfl hmono3 hin3
    (by decide) (by decide) (by decide) (by decide) (by decide)
  exact ⟨h1, h2, h3, g1, g2⟩

/-- C8: the drivers write exactly the documented output channel layout:
`avContext2Dmulti` puts the mean for channel `c` and radius index `i` at
`c*n_radii + i`; `varContext2Dmulti` / `varContext3Dmulti` put the mean at
`c*2*n_radii + i` and the variance at `c*2*n_radii + n_radii + i`; every
output cell outside those windows (or outside the spatial grid) keeps its
previous value. -/
theorem C8_output_layout :
    (∀ (st : St2) (x y c i : ℕ),
      x < st.predictions.nx → y < st.predictions.ny → c < st.predictions.nc →
      i < st.sizes.length →
      (avContext2Dmulti st).res x y (c * st.sizes.length + i)
        = (average_features st.sizes x y c st.predictions.nx st.predictions.ny
            st.predictions.nc (integralImage st.predictions)).getD i 0)
    ∧ (∀ (st : St2) (x y j : ℕ),
      st.predictions.nc * st.sizes.length ≤ j ∨ st.predictions.nx ≤ x
        ∨ st.predictions.ny ≤ y →
      (avContext2Dmulti st).res x y j = st.res x y j)
    ∧ (∀ (st : St2) (x y c i : ℕ),
      x < st.predictions.nx → y < st.predictions.ny → c < st.predictions.nc →
      i < st.sizes.length →
      (varContext2Dmulti st).res x y (c * 2 * st.sizes.length + i)
          = (average_features st.sizes x y c st.predictions.nx st.predictions.ny
              st.predictions.nc (integralImage st.predictions)).getD i 0
        ∧ (varContext2Dmulti st).res x y
            (c * 2 * st.sizes.length + st.sizes.length + i)
          = (average_features st.sizes x y c st.predictions.nx st.predictions.ny
              st.predictions.nc (integralImage2 st.predictions)).getD i 0
            - (average_features st.sizes x y c st.predictions.nx
                st.predictions.ny st.predictions.nc
                (integralImage st.predictions)).getD i 0
              * (average_features st.sizes x y c st.predictions.nx
                  st.predictions.ny st.predictions.nc
                  (integralImage st.predictions)).getD i 0)
    ∧ (∀ (st : St2) (x y j : ℕ),
      st.predictions.nc * (2 * st.sizes.length) ≤ j ∨ st.predictions.nx ≤ x
        ∨ st.predictions.ny ≤ y →
      (varContext2Dmulti st).res x y j = st.res x y j)
    ∧ (∀ (st : St3) (x y z c i : ℕ),
      x < st.predictions.nx → y < st.predictions.ny → z < st.predictions.nz →
      c < st.predictions.nc → i < st.sizes.length →
      (varContext3Dmulti st).res x y z (c * 2 * st.sizes.length + i)
          = (average_features_3d_is st.sizes x y z c st.predictions.nx
              st.predictions.ny st.predictions.nz st.predictions.nc
              (integralVolume st.predictions)).getD i 0
        ∧ (varContext3Dmulti st).res x y z
            (c * 2 * st.sizes.length + st.sizes.length + i)
          = (average_features_3d_is st.sizes x y z c st.predictions.nx
              st.predictions.ny st.predictions.nz st.predictions.nc
              (integralVolume2 st.predictions)).getD i 0
            - (average_features_3d_is st.sizes x y z c st.predictions.nx
                st.predictions.ny st.predictions.nz st.predictions.nc
                (integralVolume st.predictions)).getD i 0
              * (average_features_3d_is st.sizes x y z c st.predictions.nx
                  st.predictions.ny st.predictions.nz st.predictions.nc
                  (integralVolume st.predictions)).getD i 0)
    ∧ (∀ (st : St3) (x y z j : ℕ),
      st.predictions.nc * (2 * st.sizes.length) ≤ j ∨ st.predictions.nx ≤ x
        ∨ st.predictions.ny ≤ y ∨ st.predictions.nz ≤ z →
      (varContext3Dmulti st).res x y z j = st.res x y z j) := by
  refine ⟨?_, ?_, ?_, ?_, ?_, ?_⟩
  · intro st x y c i hx hy hc hi
    exact avLoop2_slot st.sizes st.predictions.nx st.predictions.ny
      st.predictions.nc (integralImage st.predictions) st.res x y c i
      hx hy hc hi
  · intro st x y j h
    exact avLoop2_untouched st.sizes st.predictions.nx st.predictions.ny
      st.predictions.nc (integralImage st.predictions) st.res x y j h
  · intro st x y c i hx hy hc hi
    exact ⟨varLoop2_mean_slot st.sizes st.predictions.nx st.predictions.ny
      st.predictions.nc (integralImage st.predictions)
      (integralImage2 st.predictions) st.res x y c i hx hy hc hi,
      varLoop2_var_slot st.sizes st.predictions.nx st.predictions.ny
        st.predictions.nc (integralImage st.predictions)
        (integralImage2 st.predictions) st.res x y c i hx hy hc hi⟩
  · intro st x y j h
    exact varLoop2_untouched st.sizes st.predictions.nx st.predictions.ny
      st.predictions.nc (integralImage st.predictions)
      (integralImage2 st.predictions) st.res x y j h
  · intro st x y z c i hx hy hz hc hi
    exact ⟨varLoop3_mean_slot st.sizes st.predictions.nx st.predictions.ny
      st.predictions.nz st.predictions.nc (integralVolume st.predictions)
      (integralVolume2 st.predictions) st.res x y z c i hx hy hz hc hi,
      varLoop3_var_slot st.sizes st.predictions.nx st.predictions.ny
        st.predictions.nz st.predictions.nc (integralVolume st.predictions)
        (integralVolume2 st.predictions) st.res x y z c i hx hy hz hc hi⟩
  · intro st x y z j h
    exact varLoop3_untouched st.sizes st.predictions.nx st.predictions.ny
      st.predictions.nz st.predictions.nc (integralVolume st.predictions)
      (integralVolume2 st.predictions) st.res x y z j h

/-- Witness for C8 on concrete states: written slots and untouched cells. -/
theorem C8_output_layout_witness :
    (avContext2Dmulti stConst2).res 1 1 0
        = (average_features stConst2.sizes 1 1 0 stConst2.predictions.nx
            stConst2.predictions.ny stConst2.predictions.nc
            (integralImage stConst2.predictions)).getD 0 0
      ∧ (avContext2Dmulti stConst2).res 1 1 9 = stConst2.res 1 1 9
      ∧ (varContext2Dmulti stConst2).res 1 1 1
        = (average_features stConst2.sizes 1 1 0 stConst2.predictions.nx
            stConst2.predictions.ny stConst2.predictions.nc
            (integralImage2 stConst2.predictions)).getD 0 0
          - (average_features stConst2.sizes 1 1 0 stConst2.predictions.nx
              stConst2.predictions.ny stConst2.predictions.nc
              (integralImage stConst2.predictions)).getD 0 0
            * (average_features stConst2.sizes 1 1 0 stConst2.predictions.nx
                stConst2.predictions.ny stConst2.predictions.nc
                (integralImage stConst2.predictions)).getD 0 0
      ∧ (varContext2Dmulti stConst2).res 1 1 9 = stConst2.res 1 1 9
      ∧ (varContext3Dmulti stConst3).res 1 1 1 0
        = (average_features_3d_is stConst3.sizes 1 1 1 0 stConst3.predictions.nx
            stConst3.predictions.ny stConst3.predictions.nz
            stConst3.predictions.nc (integralVolume stConst3.predictions)).getD 0 0
      ∧ (varContext3Dmulti stConst3).res 1 1 1 9 = stConst3.res 1 1 1 9 := by
  refine ⟨C8_output_layout.1 stConst2 1 1 0 0 (by decide) (by decide) (by decide)
      (by decide),
    C8_output_layout.2.1 stConst2 1 1 9 (Or.inl (by decide)),
    (C8_output_layout.2.2.1 stConst2 1 1 0 0 (by decide) (by decide) (by decide)
      (by decide)).2,
    C8_output_layout.2.2.2.1 stConst2 1 1 9 (Or.inl (by decide)),
    (C8_output_layout.2.2.2.2.1 stConst3 1 1 1 0 0 (by decide) (by decide)
      (by decide) (by decide) (by decide)).1,
    C8_output_layout.2.2.2.2.2 stConst3 1 1 1 9 (Or.inl (by decide))⟩

/-- C1 (evaluation of the code at a failing input): with the field
`F(i,j) = i²`, radii `[0,1,2]`, center `(2,2)` of a 5×5 single-channel array
and the exact prefix-sum integral, the mean written at radius index 2 is
`429/64`, while the full-box sums at radii 1 and 2 are `42` and `150`; hence
`mean₂ · n₂ + full_sum₁ ≠ full_sum₂` — the annulus decomposition claimed for
every `i ≥ 1` fails at `i = 2`, because line 47 of `contextAverage.hxx`
reconstructs the previous full-box sum as `averages[1]·(2·1+1)² = 42.75`
(an annulus mean times a full-box count) instead of the true `42`. -/
theorem C1_annulus_identity_fails :
    (average_features [0, 1, 2] 2 2 0 5 5 1 (prefixSum2 fieldSq)).getD 2 0
        = 429 / 64
      ∧ bruteBox2 fieldSq 2 2 0 1 = 42
      ∧ bruteBox2 fieldSq 2 2 0 2 = 150
      ∧ (average_features [0, 1, 2] 2 2 0 5 5 1 (prefixSum2 fieldSq)).getD 2 0
          * (((2 * 2 + 1) * (2 * 2 + 1) - (2 * 1 + 1) * (2 * 1 + 1) : ℕ) : ℚ)
          + bruteBox2 fieldSq 2 2 0 1
        ≠ bruteBox2 fieldSq 2 2 0 2 := by
  have h1 : (average_features [0, 1, 2] 2 2 0 5 5 1
      (prefixSum2 fieldSq)).getD 2 0 = 429 / 64 := by
    norm_num [average_features, afAux2, afStep2, afCount2, boxSum2, borderOut2,
      prefixSum2, fieldSq, Finset.sum_range_succ]
  have h2 : bruteBox2 fieldSq 2 2 0 1 = 42 := by
    norm_num [bruteBox2, fieldSq,
      show Finset.Icc 1 3 = ({1, 2, 3} : Finset ℕ) from rfl,
      Finset.sum_insert, Finset.mem_insert]
  have h3 : bruteBox2 fieldSq 2 2 0 2 = 150 := by
    norm_num [bruteBox2, fieldSq,
      show Finset.Icc 0 4 = ({0, 1, 2, 3, 4} : Finset ℕ) from rfl,
      Finset.sum_insert, Finset.mem_insert]
  refine ⟨h1, h2, h3, ?_⟩
  rw [h1, h2, h3]
  norm_num

set_option maxRecDepth 10000 in
/-- C4 (evaluation of the code at a failing input): on the 5×5 single-channel
field that is `1` on the eight cells around `(2,2)` and `0` elsewhere, with
radii `[0,1,2]`, the variance feature written by `varContext2Dmulti` at
location `(2,2)`, channel 0, radius index 2 (output channel
`0·2·3 + 3 + 2 = 5`) is `-17/256 < 0`. -/
theorem C4_variance_negative :
    (varContext2Dmulti stRing).res 2 2 5 = -17 / 256
      ∧ (varContext2Dmulti stRing).res 2 2 5 < 0 := by
  have e : 0 * 2 * stRing.sizes.length + stRing.sizes.length + 2 = 5 := rfl
  have h := varLoop2_var_slot stRing.sizes stRing.predictions.nx
    stRing.predictions.ny stRing.predictions.nc
    (integralImage stRing.predictions) (integralImage2 stRing.predictions)
    stRing.res 2 2 0 2 (by decide) (by decide) (by decide) (by decide)
  rw [e] at h
  have hval : (varContext2Dmulti stRing).res 2 2 5 = -17 / 256 := by
    refine Eq.trans h ?_
    norm_num [stRing, average_features, afAux2, afStep2, afCount2, boxSum2,
      borderOut2, integralImage, integralImage2, prefixSum2, ringField,
      Finset.sum_range_succ, -Finset.sum_boole]
  exact ⟨hval, by rw [hval]; norm_num⟩

end ContextAverage
